import Mathlib

/-!
# Windows disk I/O check (`iostats_wmi_windows.go`) and the metrics query helper

A shallow embedding of `computeValue`, `IOCheck.Run`, `IOCheck.Configure` and
`convertWindowsStringList` (namespace `IOStats`), and of the query string that
`QueryDatadogExtra` builds in `datadogapi.go` (namespace `CustomMetrics`).

* Unsigned machine integers are natural numbers; every subtraction wraps modulo
  `2 ^ 64` explicitly and every division by a run-time value checks its divisor,
  because Go raises the run-time panic "integer divide by zero" there.
* A `float64` is carried as the rational number it denotes. The only way the
  program produces one is the conversion `float64(v)` of a `uint64`, which is
  modelled exactly (round to nearest, ties to even, 53 significant bits).
* A Go map is an association list with distinct keys. Go leaves the iteration
  order of `range` over a map unspecified, so the cycle takes the order as a
  parameter; a legitimate order is any permutation of the entries.
* Reads of a slice or of a string by index are partial: an index that is out of
  range raises the run-time panic of Go.
* Calls to the operating system, to WMI, to the aggregator and to the metrics API
  are parameters that stand for what the call returns.
* Calls to the logger have no effect on the values returned or on the sender
  and are left out.
-/

namespace IOStats

/-! ## Outcomes of a Go call -/

/-- How a call to a Go function of type `(T, error)` ends: it returns a value with a
nil error, it returns a non-nil error (and a nil value), or it panics. -/
inductive Outcome (α : Type) where
  | ok (val : α)
  | err (msg : String)
  | panic (msg : String)
  deriving DecidableEq, Repr

/-- Sequencing of Go statements: an error or a panic ends the computation. -/
def Outcome.bind {α β : Type} (x : Outcome α) (k : α → Outcome β) : Outcome β :=
  match x with
  | .ok a => k a
  | .err e => .err e
  | .panic p => .panic p

instance : Monad Outcome where
  pure := Outcome.ok
  bind := Outcome.bind

/-! ## Machine arithmetic -/

/-- Subtraction of two `uint64` values: Go wraps around modulo `2 ^ 64`. -/
def subU64 (a b : Nat) : Nat := (a + 2 ^ 64 - b) % 2 ^ 64

/-- Division of two `uint64` values: truncating, and a zero divisor panics. -/
def divU64 (a b : Nat) : Outcome Nat :=
  if b = 0 then .panic "runtime error: integer divide by zero" else .ok (a / b)

/-- A `float64` value, as the rational number it denotes. -/
abbrev Float64 := ℚ

/-- Number of low bits a `uint64` loses when it is rounded to 53 significant bits
(`fuel` bounds the search; 11 is enough below `2 ^ 64`). -/
def float64Shift : Nat → Nat → Nat
  | 0, _ => 0
  | fuel + 1, v => if v < 2 ^ 53 then 0 else float64Shift fuel (v / 2) + 1

/-- The integer denoted by `float64(v)` for a `uint64` value `v`: `v` itself below
`2 ^ 53`, otherwise `v` rounded to 53 significant bits, to nearest, ties to even. -/
def roundU64 (v : Nat) : Nat :=
  let e := float64Shift 11 v
  let q := v / 2 ^ e
  let r := v % 2 ^ e
  if 2 * r > 2 ^ e ∨ (2 * r = 2 ^ e ∧ q % 2 = 1) then (q + 1) * 2 ^ e else q * 2 ^ e

/-- The Go conversion `float64(v)` of a `uint64` value. -/
def float64 (v : Nat) : Float64 := (roundU64 v : ℚ)

/-! ## Go maps -/

/-- A Go `map[string]V`: an association list holding each key at most once. -/
abbrev GoMap (V : Type) := List (String × V)

/-- The Go expression `make(map[string]V, 0)`. -/
def GoMap.empty {V : Type} : GoMap V := []

/-- The Go expression `v, ok := m[k]`. -/
def GoMap.get {V : Type} : GoMap V → String → Option V
  | [], _ => none
  | (k', v) :: m, k => if k' = k then some v else GoMap.get m k

/-- The Go statement `m[k] = v`: overwrite the entry of `k`, or add one. -/
def GoMap.set {V : Type} : GoMap V → String → V → GoMap V
  | [], k, v => [(k, v)]
  | (k', v') :: m, k, v => if k' = k then (k, v) :: m else (k', v') :: GoMap.set m k v

/-! ## The data model -/

/-- Perf infos for a drive, one row of the WMI class of the same name. The comment
on each field gives its Go type. -/
structure Win32PerfRawDataPerfDiskLogicalDisk where
  /-- Go type `uint32`. -/
  CurrentDiskQueueLength : Nat
  /-- Go type `uint64`. -/
  DiskReadBytesPerSec : Nat
  /-- Go type `uint32`. -/
  DiskReadsPerSec : Nat
  /-- Go type `uint64`. -/
  DiskWriteBytesPerSec : Nat
  /-- Go type `uint32`. -/
  DiskWritesPerSec : Nat
  /-- Go type `uint64`. -/
  FrequencySys100NS : Nat
  /-- Go type `string`. -/
  Name : String
  /-- Go type `uint64`. -/
  TimestampSys100NS : Nat
  deriving DecidableEq, Repr

/-- Every counter of the row fits the width of its Go type. -/
def WellTyped (d : Win32PerfRawDataPerfDiskLogicalDisk) : Prop :=
  d.CurrentDiskQueueLength < 2 ^ 32 ∧ d.DiskReadBytesPerSec < 2 ^ 64 ∧
  d.DiskReadsPerSec < 2 ^ 32 ∧ d.DiskWriteBytesPerSec < 2 ^ 64 ∧
  d.DiskWritesPerSec < 2 ^ 32 ∧ d.FrequencySys100NS < 2 ^ 64 ∧
  d.TimestampSys100NS < 2 ^ 64

instance (d : Win32PerfRawDataPerfDiskLogicalDisk) : Decidable (WellTyped d) := by
  unfold WellTyped; infer_instance

/-! ## The rate engine -/

/-- The Go function `computeValue(pvs, cur)`. The three `uint32` counters are
widened by `uint64(...)` before they are subtracted, so all five differences wrap
modulo `2 ^ 64`; the divisor of every rate is the truncated quotient `dt / f`. -/
def computeValue (pvs cur : Win32PerfRawDataPerfDiskLogicalDisk) :
    Outcome (GoMap Float64) :=
  let ret : GoMap Float64 := GoMap.empty
  let f := pvs.FrequencySys100NS
  let dt := subU64 cur.TimestampSys100NS pvs.TimestampSys100NS
  if f = 0 then
    .err "Divide by zero (frequency)"
  else if dt = 0 then
    .err "Divide by zero (delta-T)"
  else do
    let v ← divU64 (subU64 cur.DiskWriteBytesPerSec pvs.DiskWriteBytesPerSec) (← divU64 dt f)
    let ret := ret.set "system.io.wkb_s" (float64 (v / 1024))
    let v ← divU64 (subU64 cur.DiskWritesPerSec pvs.DiskWritesPerSec) (← divU64 dt f)
    let ret := ret.set "system.io.w_s" (float64 v)
    let v ← divU64 (subU64 cur.DiskReadBytesPerSec pvs.DiskReadBytesPerSec) (← divU64 dt f)
    let ret := ret.set "system.io.rkb_s" (float64 (v / 1024))
    let v ← divU64 (subU64 cur.DiskReadsPerSec pvs.DiskReadsPerSec) (← divU64 dt f)
    let ret := ret.set "system.io.r_s" (float64 v)
    let v ← divU64 (subU64 cur.CurrentDiskQueueLength pvs.CurrentDiskQueueLength) (← divU64 dt f)
    let ret := ret.set "system.io.avg_q_sz" (float64 v)
    .ok ret

/-! ## The poll cycle -/

/-- A compiled regular expression, as the predicate `MatchString` decides. -/
abbrev Regexp := String → Bool

/-- The check instance; `blacklist` is `none` for the Go nil pointer. -/
structure IOCheck where
  blacklist : Option Regexp
  drivemap : GoMap Win32PerfRawDataPerfDiskLogicalDisk
  lastWarnings : List String

/-- A call on the sender that `aggregator.GetSender` hands out. -/
inductive SenderCall where
  | Gauge (metric : String) (value : Float64) (hostname : String) (tags : List String)
  | Commit
  deriving DecidableEq, Repr

/-- The effects of a cycle so far: the value of `c.drivemap`, the calls made on the
sender in order, and the assignments `c.drivemap[k] = v` made, in order. -/
structure Cycle where
  drivemap : GoMap Win32PerfRawDataPerfDiskLogicalDisk
  sent : List SenderCall
  writes : List (String × Win32PerfRawDataPerfDiskLogicalDisk)
  deriving DecidableEq, Repr

/-- Control after a statement of `Run`: execution goes on, or a panic unwinds it. -/
inductive Flow where
  | running (st : Cycle)
  | panicked (msg : String) (st : Cycle)
  deriving DecidableEq, Repr

/-- The order in which `range` walks a metric map in iteration `i` of the loop over
the rows. Go does not specify it. -/
abbrev RangeOrder := Nat → GoMap Float64 → List (String × Float64)

/-- A legitimate `range` visits every entry of the map exactly once. -/
def RangeOrder.Legit (ord : RangeOrder) : Prop :=
  ∀ (i : Nat) (m : GoMap Float64), (ord i m).Perm m

/-- The inner loop `for k, v := range metrics { sender.Gauge(k, v, "", tags) }`,
over the entries in the order they are visited. -/
def gaugeAll (tags : List String) (entries : List (String × Float64)) : List SenderCall :=
  entries.map (fun kv => SenderCall.Gauge kv.1 kv.2 "" tags)

/-- The statement `c.drivemap[d.Name] = d`. -/
def Cycle.assign (st : Cycle) (d : Win32PerfRawDataPerfDiskLogicalDisk) : Cycle :=
  { st with drivemap := st.drivemap.set d.Name d, writes := st.writes ++ [(d.Name, d)] }

/-- The condition `c.blacklist != nil && c.blacklist.MatchString(drive)`. -/
def blacklisted (blacklist : Option Regexp) (drive : String) : Bool :=
  match blacklist with
  | none => false
  | some re => re drive

/-- The body of the loop `for _, d := range dst` in `Run`, in iteration `i`. -/
def loopBody (blacklist : Option Regexp) (ord : RangeOrder) (i : Nat) (st : Cycle)
    (d : Win32PerfRawDataPerfDiskLogicalDisk) : Flow :=
  if d.Name.utf8ByteSize > 3 then
    .running st
  else
    let drive := d.Name
    if blacklisted blacklist drive then
      .running st
    else
      let tags := ["device:" ++ drive]
      let flow : Flow :=
        match st.drivemap.get d.Name with
        | some prev =>
          match computeValue prev d with
          | .ok metrics => .running { st with sent := st.sent ++ gaugeAll tags (ord i metrics) }
          | .err _ => .running st
          | .panic msg => .panicked msg st
        | none => .running st
      match flow with
      | .running st1 => .running (st1.assign d)
      | .panicked msg st1 => .panicked msg st1

/-- The loop `for _, d := range dst` of `Run`, from iteration `i` on. -/
def rangeLoop (blacklist : Option Regexp) (ord : RangeOrder) :
    Nat → Cycle → List Win32PerfRawDataPerfDiskLogicalDisk → Flow
  | _, st, [] => .running st
  | i, st, d :: dst =>
    match loopBody blacklist ord i st d with
    | .running st1 => rangeLoop blacklist ord (i + 1) st1 dst
    | .panicked msg st1 => .panicked msg st1

/-- What a call of `Run` leaves behind: how it ended (`ok` is the nil error) and
its effects. -/
structure RunResult where
  ret : Outcome Unit
  st : Cycle
  deriving DecidableEq, Repr

/-- The Go method `(c *IOCheck) Run()`. `getSender` is what `aggregator.GetSender`
returns (the sender itself is represented by the calls made on it), `wmiQuery` is
what `wmi.Query` returns with the rows it stored in `dst`, and `ord` is the order
of the map iterations. -/
def Run (c : IOCheck) (getSender : Except String Unit)
    (wmiQuery : Except String (List Win32PerfRawDataPerfDiskLogicalDisk))
    (ord : RangeOrder) : RunResult :=
  let st0 : Cycle := { drivemap := c.drivemap, sent := [], writes := [] }
  match getSender with
  | .error err => { ret := .err err, st := st0 }
  | .ok _ =>
    match wmiQuery with
    | .error err => { ret := .err err, st := st0 }
    | .ok dst =>
      match rangeLoop c.blacklist ord 0 st0 dst with
      | .running st => { ret := .ok (), st := { st with sent := st.sent ++ [SenderCall.Commit] } }
      | .panicked msg st => { ret := .panic msg, st := st }

/-! ## Reference formulas and sample inputs -/

/-- The metric map `computeValue` builds when every rate is divided by `s`. -/
def rateMap (pvs cur : Win32PerfRawDataPerfDiskLogicalDisk) (s : Nat) : GoMap Float64 :=
  [("system.io.wkb_s", float64 (subU64 cur.DiskWriteBytesPerSec pvs.DiskWriteBytesPerSec / s / 1024)),
   ("system.io.w_s", float64 (subU64 cur.DiskWritesPerSec pvs.DiskWritesPerSec / s)),
   ("system.io.rkb_s", float64 (subU64 cur.DiskReadBytesPerSec pvs.DiskReadBytesPerSec / s / 1024)),
   ("system.io.r_s", float64 (subU64 cur.DiskReadsPerSec pvs.DiskReadsPerSec / s)),
   ("system.io.avg_q_sz", float64 (subU64 cur.CurrentDiskQueueLength pvs.CurrentDiskQueueLength / s))]

/-- The difference `(c - p) mod 2 ^ 64` of the reference formula, over the integers. -/
def specDelta (c p : Nat) : Nat := (((c : Int) - (p : Int)) % 2 ^ 64).toNat

/-- The elapsed seconds `s = dt / f` of the reference formula, truncated. -/
def specSeconds (pvs cur : Win32PerfRawDataPerfDiskLogicalDisk) : Nat :=
  specDelta cur.TimestampSys100NS pvs.TimestampSys100NS / pvs.FrequencySys100NS

/-- A snapshot taken at tick 1000000000 of a clock of 10000000 ticks per second. -/
def halfSecondPrev : Win32PerfRawDataPerfDiskLogicalDisk :=
  { CurrentDiskQueueLength := 0, DiskReadBytesPerSec := 4096, DiskReadsPerSec := 4,
    DiskWriteBytesPerSec := 8192, DiskWritesPerSec := 8, FrequencySys100NS := 10000000,
    Name := "C:", TimestampSys100NS := 1000000000 }

/-- The snapshot of the same drive half a second (5000000 ticks) later. -/
def halfSecondCur : Win32PerfRawDataPerfDiskLogicalDisk :=
  { CurrentDiskQueueLength := 1, DiskReadBytesPerSec := 8192, DiskReadsPerSec := 8,
    DiskWriteBytesPerSec := 16384, DiskWritesPerSec := 16, FrequencySys100NS := 10000000,
    Name := "C:", TimestampSys100NS := 1005000000 }

/-- The zero value of the row type, `Win32PerfRawDataPerfDiskLogicalDisk{}`. -/
def zeroRow : Win32PerfRawDataPerfDiskLogicalDisk :=
  { CurrentDiskQueueLength := 0, DiskReadBytesPerSec := 0, DiskReadsPerSec := 0,
    DiskWriteBytesPerSec := 0, DiskWritesPerSec := 0, FrequencySys100NS := 0,
    Name := "", TimestampSys100NS := 0 }

/-- The previous snapshot of the write-byte scenario. -/
def scenarioPrev : Win32PerfRawDataPerfDiskLogicalDisk :=
  { zeroRow with DiskWriteBytesPerSec := 1000, TimestampSys100NS := 100,
                 FrequencySys100NS := 10 }

/-- The current snapshot of the write-byte scenario. -/
def scenarioCur : Win32PerfRawDataPerfDiskLogicalDisk :=
  { zeroRow with DiskWriteBytesPerSec := 2024, TimestampSys100NS := 200,
                 FrequencySys100NS := 10 }

/-- A row is tracked when its name passes the shape check of `Run` (at most 3
bytes) and the exclusion filter. -/
def Tracked (blacklist : Option Regexp) (d : Win32PerfRawDataPerfDiskLogicalDisk) : Prop :=
  d.Name.utf8ByteSize ≤ 3 ∧ blacklisted blacklist d.Name = false

instance (blacklist : Option Regexp) (d : Win32PerfRawDataPerfDiskLogicalDisk) :
    Decidable (Tracked blacklist d) := by
  unfold Tracked; infer_instance

/-- The call returned to its caller instead of panicking. -/
def Outcome.Returned {α : Type} (o : Outcome α) : Prop :=
  match o with
  | .panic _ => False
  | _ => True

instance {α : Type} (o : Outcome α) : Decidable o.Returned := by
  unfold Outcome.Returned; split <;> infer_instance

/-- The sender call is a `Gauge` emission. -/
def SenderCall.isGauge (x : SenderCall) : Bool :=
  match x with
  | .Gauge _ _ _ _ => true
  | .Commit => false

/-- The drive `D:` as it was stored one poll earlier. -/
def drivePrevD : Win32PerfRawDataPerfDiskLogicalDisk := { halfSecondPrev with Name := "D:" }

/-- The drive `D:` half a second after `drivePrevD`. -/
def driveCurD : Win32PerfRawDataPerfDiskLogicalDisk := { halfSecondCur with Name := "D:" }

/-- The drive `C:` a full second (10000000 ticks) after `halfSecondPrev`. -/
def fullSecondCur : Win32PerfRawDataPerfDiskLogicalDisk :=
  { halfSecondCur with TimestampSys100NS := 1010000000 }

/-- A check whose store holds an earlier snapshot of the drive `C:`. -/
def oneDriveCheck : IOCheck :=
  { blacklist := none, drivemap := [("C:", halfSecondPrev)], lastWarnings := [] }

/-- A check whose store holds the zero row for `C:`, as `Configure` leaves it, and
an earlier snapshot of the drive `D:`. -/
def twoDriveCheck : IOCheck :=
  { blacklist := none, drivemap := [("C:", zeroRow), ("D:", drivePrevD)], lastWarnings := [] }

/-- A visiting order that walks every map backwards. -/
def backwards : RangeOrder := fun _ m => m.reverse

/-- The five metric names of the check. -/
def metricNames : List String :=
  ["system.io.wkb_s", "system.io.w_s", "system.io.rkb_s", "system.io.r_s", "system.io.avg_q_sz"]

/-- The effects a loop has had when it ends, whether it ran through or panicked. -/
def Flow.state (fl : Flow) : Cycle :=
  match fl with
  | .running st => st
  | .panicked _ st => st

/-- A snapshot whose operation counters are ahead of `halfSecondCur`. -/
def resetPrev : Win32PerfRawDataPerfDiskLogicalDisk :=
  { halfSecondPrev with CurrentDiskQueueLength := 3, DiskReadsPerSec := 9,
                        DiskWritesPerSec := 20 }

/-- A pattern that matches the drive `D:` only. -/
def onlyD : Regexp := fun drive => drive = "D:"

/-- The check of `twoDriveCheck` with the drive `D:` excluded. -/
def excludingCheck : IOCheck :=
  { blacklist := some onlyD, drivemap := [("C:", halfSecondPrev), ("D:", drivePrevD)],
    lastWarnings := [] }

/-- The row `_Total` of the WMI class, whose name fails the shape check. -/
def totalRow : Win32PerfRawDataPerfDiskLogicalDisk := { fullSecondCur with Name := "_Total" }

/-! ## Drive enumeration: `convertWindowsStringList` and `Configure` -/

/-- The Go conversion `string(rune(w))` of a `uint16` value: the UTF-8 encoding of
the code point `w`, or of the replacement character when `w` is a surrogate. -/
def runeString (w : Nat) : String :=
  if 0xD800 ≤ w ∧ w ≤ 0xDFFF then "\uFFFD" else String.singleton (Char.ofNat w)

/-- The loop `for i := 0; i < (len(winput) - 1); i++` of `convertWindowsStringList`
with `n` iterations left at index `i`. Reading outside `winput` panics. -/
def convertLoop (winput : List Nat) :
    Nat → Nat → List String → String → Outcome (List String)
  | 0, _, retstrings, _ => .ok retstrings
  | n + 1, i, retstrings, buffer =>
    match winput[i]? with
    | none => .panic "runtime error: index out of range"
    | some w =>
      if w = 0 then
        let retstrings := retstrings ++ [buffer]
        match winput[i + 1]? with
        | none => .panic "runtime error: index out of range"
        | some w1 =>
          if w1 = 0 then .ok retstrings
          else convertLoop winput n (i + 1) retstrings ""
      else convertLoop winput n (i + 1) retstrings (buffer ++ runeString w)

/-- The Go function `convertWindowsStringList(winput)`; the loop runs for the
indices below `len(winput) - 1`, none when the buffer is empty. -/
def convertWindowsStringList (winput : List Nat) : Outcome (List String) :=
  convertLoop winput (winput.length - 1) 0 [] ""

/-- The body of the loop `for _, drive := range drivelist` of `Configure`: a drive
whose type is `DRIVE_FIXED` gets the zero row as its store entry. -/
def placeFixedDrive (getDriveType : String → Nat) (DRIVE_FIXED : Nat) (c : IOCheck)
    (drive : String) : IOCheck :=
  if getDriveType (drive ++ "\\") ≠ DRIVE_FIXED then c
  else { c with drivemap := c.drivemap.set drive zeroRow }

/-- The Go method `(c *IOCheck) Configure`. Its collaborators are parameters:
`commonConfigure` is the method of that name, which is not in this file, with the
check it leaves and the error it returns; `r`, `drivebuf` and `callErr` are the
result, the filled buffer and the error of the call of `GetLogicalDriveStringsW`;
`getDriveType` is the call of `GetDriveTypeW`; `DRIVE_FIXED` is the constant of
that name. The result is the check as `Configure` leaves it and how it ended. -/
def Configure (c : IOCheck) (commonConfigure : IOCheck → IOCheck × Option String)
    (r : Nat) (drivebuf : List Nat) (callErr : String) (getDriveType : String → Nat)
    (DRIVE_FIXED : Nat) : IOCheck × Outcome Unit :=
  match commonConfigure c with
  | (c1, some err) => (c1, .err err)
  | (c1, none) =>
    let c2 : IOCheck := { c1 with drivemap := GoMap.empty }
    if r = 0 then
      (c2, .err callErr)
    else
      match convertWindowsStringList drivebuf with
      | .ok drivelist => (drivelist.foldl (placeFixedDrive getDriveType DRIVE_FIXED) c2, .ok ())
      | .err e => (c2, .err e)
      | .panic msg => (c2, .panic msg)

/-- The double-NUL-terminated list `s1 ++ [0] ++ ... ++ sn ++ [0, 0]` of the
strings `s1 .. sn`, each a list of UTF-16 code units. -/
def windowsStringList : List (List Nat) → List Nat
  | [] => [0]
  | s :: ss => s ++ 0 :: windowsStringList ss

/-- The string whose characters are the code points of the list. -/
def unitsToString (s : List Nat) : String := String.mk (s.map Char.ofNat)

/-- A UTF-16 code unit that is neither NUL nor a surrogate. -/
def PlainUnit (u : Nat) : Prop := u ≠ 0 ∧ u < 65536 ∧ ¬ (0xD800 ≤ u ∧ u ≤ 0xDFFF)

instance (u : Nat) : Decidable (PlainUnit u) := by
  unfold PlainUnit; infer_instance

/-- The buffer `C:\`, NUL, `D:\`, NUL, NUL, padded with NUL to 256 code units. -/
def twoDriveBuffer : List Nat :=
  [67, 58, 92, 0, 68, 58, 92, 0, 0] ++ List.replicate 247 0

/-- A drive type oracle for which only `C:\` is a fixed drive (type 3). -/
def onlyCFixed : String → Nat := fun path => if path = "C:\\\\" then 3 else 5

/-- A first row for the key `C:\` that `Configure` creates. -/
def firstRowC : Win32PerfRawDataPerfDiskLogicalDisk := { halfSecondCur with Name := "C:\\" }

end IOStats

/-! # The external-metrics query helper (`datadogapi.go`) -/

namespace CustomMetrics

open IOStats

/-- The bytes of a Go string, which are the UTF-8 encoding of its characters. -/
def goBytes (s : String) : List Nat :=
  (s.data.flatMap String.utf8EncodeChar).map UInt8.toNat

/-- The Go index expression `t[i]` on a string: the byte at `i`, or the run-time
panic when `i` is not below `len(t)`. -/
def indexByte (t : String) (i : Nat) : Outcome Nat :=
  match (goBytes t)[i]? with
  | some b => .ok b
  | none =>
    .panic ("runtime error: index out of range [" ++ toString i ++ "] with length "
      ++ toString (goBytes t).length)

/-- What `fmt.Sprintf` prints for a `uint8` operand under the verb `%s`. -/
def sprintfByte (b : Nat) : String := "%!s(uint8=" ++ toString b ++ ")"

/-- The expression `fmt.Sprintf("%s:%s", t[0], t[1])` for a tag value `t`. -/
def tagOf (t : String) : Outcome String := do
  let b0 ← indexByte t 0
  let b1 ← indexByte t 1
  pure (sprintfByte b0 ++ ":" ++ sprintfByte b1)

/-- The loop `for _, t := range tags` of `QueryDatadogExtra` over the entries of
the map in the order they are visited; only the values `t` are used. -/
def tagsLoop : List (String × String) → List String → Outcome (List String)
  | [], datadogTags => .ok datadogTags
  | (_, t) :: rest, datadogTags => do
    let tag ← tagOf t
    tagsLoop rest (datadogTags ++ [tag])

/-- Lines 38 to 45 of `QueryDatadogExtra`: the query string it builds from the
metric name and the tags. -/
def buildQuery (metricName : String) (tags : List (String × String)) : Outcome String := do
  let datadogTags ← tagsLoop tags []
  let tagEnd := String.intercalate "," datadogTags
  pure ("avg:" ++ metricName ++ "\x7b" ++ tagEnd ++ "\x7d")

/-- A series of the metrics API: its points, each a timestamp and a value. -/
structure Series where
  Points : List (Float64 × Float64)

/-- The Go function `QueryDatadogExtra(metricName, tags)`. `tags` lists the entries
of the map in the order `range` visits them, `queryMetrics` is the call of
`client.QueryMetrics` for the last five minutes, and `int64` is the conversion of
a `float64` to `int64`. -/
def QueryDatadogExtra (metricName : String) (tags : List (String × String))
    (queryMetrics : String → Except String (List Series)) (int64 : Float64 → Int) :
    Outcome Int := do
  let query ← buildQuery metricName tags
  match queryMetrics query with
  | .error err => .err ("Error while executing metric query " ++ query ++ ": " ++ err)
  | .ok seriesSlice =>
    match seriesSlice with
    | [] => .err "Returned series slice empty"
    | series0 :: _ =>
      let points := series0.Points
      match points.getLast? with
      | none => .err "No points in series"
      | some point => .ok (int64 point.2)

end CustomMetrics

namespace IOStats

/-! ## Auxiliary facts -/

theorem subU64_self (t : Nat) : subU64 t t = 0 := by
  simp [subU64]

/-- The four ways `computeValue` ends, by the frequency, the elapsed ticks and
their quotient. -/
theorem computeValue_cases (pvs cur : Win32PerfRawDataPerfDiskLogicalDisk) :
    computeValue pvs cur =
      if pvs.FrequencySys100NS = 0 then .err "Divide by zero (frequency)"
      else if subU64 cur.TimestampSys100NS pvs.TimestampSys100NS = 0 then
        .err "Divide by zero (delta-T)"
      else if subU64 cur.TimestampSys100NS pvs.TimestampSys100NS / pvs.FrequencySys100NS = 0 then
        .panic "runtime error: integer divide by zero"
      else .ok (rateMap pvs cur
        (subU64 cur.TimestampSys100NS pvs.TimestampSys100NS / pvs.FrequencySys100NS)) := by
  unfold computeValue
  by_cases hf : pvs.FrequencySys100NS = 0
  · simp [hf]
  by_cases hdt : subU64 cur.TimestampSys100NS pvs.TimestampSys100NS = 0
  · simp [hf, hdt]
  by_cases hq : subU64 cur.TimestampSys100NS pvs.TimestampSys100NS / pvs.FrequencySys100NS = 0
  · simp only [hf, hdt, hq, if_false, divU64, bind, Outcome.bind, if_true]
  · simp only [hf, hdt, hq, if_false, divU64, bind, Outcome.bind]
    simp [rateMap, GoMap.set, GoMap.empty]

theorem subU64_eq_specDelta (c p : Nat) (hc : c < 2 ^ 64) (hp : p < 2 ^ 64) :
    subU64 c p = specDelta c p := by
  unfold subU64 specDelta
  omega

theorem GoMap.get_set_self {V : Type} (m : GoMap V) (k : String) (v : V) :
    GoMap.get (GoMap.set m k v) k = some v := by
  induction m with
  | nil => simp [GoMap.set, GoMap.get]
  | cons hd tl ih =>
    obtain ⟨k1, v1⟩ := hd
    by_cases hk : k1 = k
    · simp [GoMap.set, GoMap.get, hk]
    · simp [GoMap.set, GoMap.get, hk, ih]

theorem GoMap.get_set_other {V : Type} (m : GoMap V) (k j : String) (v : V) (hj : k ≠ j) :
    GoMap.get (GoMap.set m k v) j = GoMap.get m j := by
  induction m with
  | nil => simp [GoMap.set, GoMap.get, hj]
  | cons hd tl ih =>
    obtain ⟨k1, v1⟩ := hd
    by_cases hk : k1 = k
    · subst hk
      simp [GoMap.set, GoMap.get, hj]
    · simp [GoMap.set, GoMap.get, hk, ih]

theorem backwards_legit : RangeOrder.Legit backwards :=
  fun _ m => List.reverse_perm m

/-- The body of the loop on a tracked row, with the two guards discharged. -/
theorem loopBody_tracked (blacklist : Option Regexp) (ord : RangeOrder) (i : Nat) (st : Cycle)
    (d : Win32PerfRawDataPerfDiskLogicalDisk) (ht : Tracked blacklist d) :
    loopBody blacklist ord i st d =
      match st.drivemap.get d.Name with
      | some prev =>
        match computeValue prev d with
        | .ok metrics =>
          .running (Cycle.assign
            { st with sent := st.sent ++ gaugeAll ["device:" ++ d.Name] (ord i metrics) } d)
        | .err _ => .running (st.assign d)
        | .panic msg => .panicked msg st
      | none => .running (st.assign d) := by
  obtain ⟨hlen, hbl⟩ := ht
  have hlen2 : ¬ d.Name.utf8ByteSize > 3 := by omega
  unfold loopBody
  simp only [hlen2, hbl, if_false]
  cases hget : st.drivemap.get d.Name with
  | none => simp
  | some prev =>
    cases hcv : computeValue prev d <;> simp [hcv]

/-- A row whose rate computation returns an error only costs its own metrics: the
row is recorded and the loop goes on with the rows after it. -/
theorem rangeLoop_cons_of_err (blacklist : Option Regexp) (ord : RangeOrder) (i : Nat)
    (st : Cycle) (d prev : Win32PerfRawDataPerfDiskLogicalDisk)
    (dst : List Win32PerfRawDataPerfDiskLogicalDisk) (e : String)
    (ht : Tracked blacklist d) (hg : st.drivemap.get d.Name = some prev)
    (hc : computeValue prev d = .err e) :
    loopBody blacklist ord i st d = .running (st.assign d) ∧
    rangeLoop blacklist ord i st (d :: dst) = rangeLoop blacklist ord (i + 1) (st.assign d) dst := by
  have hb : loopBody blacklist ord i st d = .running (st.assign d) := by
    rw [loopBody_tracked blacklist ord i st d ht, hg]
    simp [hc]
  exact ⟨hb, by simp [rangeLoop, hb]⟩

/-- One iteration that does not panic only appends `Gauge` calls to the sender. -/
theorem loopBody_sent (blacklist : Option Regexp) (ord : RangeOrder) (i : Nat) (st st1 : Cycle)
    (d : Win32PerfRawDataPerfDiskLogicalDisk)
    (h : loopBody blacklist ord i st d = .running st1) :
    ∃ gs, st1.sent = st.sent ++ gs ∧ ∀ x ∈ gs, x.isGauge = true := by
  by_cases h1 : d.Name.utf8ByteSize > 3
  · simp only [loopBody, h1, if_true, Flow.running.injEq] at h
    subst h
    exact ⟨[], by simp, by simp⟩
  by_cases h2 : blacklisted blacklist d.Name = true
  · simp only [loopBody, h1, h2, if_true, if_false, Flow.running.injEq] at h
    subst h
    exact ⟨[], by simp, by simp⟩
  have ht : Tracked blacklist d := ⟨by omega, by simpa using h2⟩
  rw [loopBody_tracked blacklist ord i st d ht] at h
  cases hget : st.drivemap.get d.Name with
  | none =>
    simp only [hget] at h
    cases h
    exact ⟨[], by simp [Cycle.assign], by simp⟩
  | some prev =>
    simp only [hget] at h
    cases hcv : computeValue prev d with
    | ok m =>
      simp only [hcv] at h
      cases h
      refine ⟨gaugeAll ["device:" ++ d.Name] (ord i m), by simp [Cycle.assign], ?_⟩
      intro x hx
      simp only [gaugeAll, List.mem_map] at hx
      obtain ⟨kv, _, rfl⟩ := hx
      rfl
    | err e =>
      simp only [hcv] at h
      cases h
      exact ⟨[], by simp [Cycle.assign], by simp⟩
    | panic msg =>
      simp only [hcv] at h
      cases h

/-- A loop that does not panic only appends `Gauge` calls to the sender. -/
theorem rangeLoop_sent (blacklist : Option Regexp) (ord : RangeOrder)
    (dst : List Win32PerfRawDataPerfDiskLogicalDisk) :
    ∀ (i : Nat) (st st1 : Cycle), rangeLoop blacklist ord i st dst = .running st1 →
      ∃ gs, st1.sent = st.sent ++ gs ∧ ∀ x ∈ gs, x.isGauge = true := by
  induction dst with
  | nil =>
    intro i st st1 h
    simp only [rangeLoop] at h
    cases h
    exact ⟨[], by simp, by simp⟩
  | cons d dst ih =>
    intro i st st1 h
    simp only [rangeLoop] at h
    cases hb : loopBody blacklist ord i st d with
    | running st2 =>
      simp only [hb] at h
      obtain ⟨g1, e1, a1⟩ := loopBody_sent blacklist ord i st st2 d hb
      obtain ⟨g2, e2, a2⟩ := ih (i + 1) st2 st1 h
      refine ⟨g1 ++ g2, by simp [e2, e1], ?_⟩
      intro x hx
      rcases List.mem_append.mp hx with hx | hx
      · exact a1 x hx
      · exact a2 x hx
    | panicked msg st2 =>
      simp only [hb] at h
      cases h

/-- Whenever the frequency is not 0 and fewer ticks than one second of them have
elapsed, but not none, `computeValue` panics. -/
theorem computeValue_panic_of_lt (pvs cur : Win32PerfRawDataPerfDiskLogicalDisk)
    (hdt : subU64 cur.TimestampSys100NS pvs.TimestampSys100NS ≠ 0)
    (hlt : subU64 cur.TimestampSys100NS pvs.TimestampSys100NS < pvs.FrequencySys100NS) :
    computeValue pvs cur = .panic "runtime error: integer divide by zero" := by
  have hf : pvs.FrequencySys100NS ≠ 0 := by omega
  rw [computeValue_cases]
  simp [hf, hdt, Nat.div_eq_of_lt hlt]

/-- An iteration on a tracked row that does not panic ends with the assignment
to the store: the store then maps the name of the row to the row. -/
theorem loopBody_overwrites (blacklist : Option Regexp) (ord : RangeOrder) (i : Nat)
    (st st1 : Cycle) (d : Win32PerfRawDataPerfDiskLogicalDisk) (ht : Tracked blacklist d)
    (h : loopBody blacklist ord i st d = .running st1) :
    st1.drivemap = st.drivemap.set d.Name d ∧ st1.drivemap.get d.Name = some d ∧
    st1.writes = st.writes ++ [(d.Name, d)] := by
  have key : st1.drivemap = st.drivemap.set d.Name d ∧
      st1.writes = st.writes ++ [(d.Name, d)] := by
    rw [loopBody_tracked blacklist ord i st d ht] at h
    cases hget : st.drivemap.get d.Name with
    | none =>
      simp only [hget] at h
      cases h
      exact ⟨rfl, rfl⟩
    | some prev =>
      simp only [hget] at h
      cases hcv : computeValue prev d with
      | ok m =>
        simp only [hcv] at h
        cases h
        exact ⟨rfl, rfl⟩
      | err e =>
        simp only [hcv] at h
        cases h
        exact ⟨rfl, rfl⟩
      | panic msg =>
        simp only [hcv] at h
        cases h
  refine ⟨key.1, ?_, key.2⟩
  rw [key.1]
  exact GoMap.get_set_self st.drivemap d.Name d

/-- A tracked row whose stored snapshot has frequency 0, or the timestamp of the
row, is recorded without any call on the sender. -/
theorem loopBody_of_degenerate (blacklist : Option Regexp) (ord : RangeOrder) (i : Nat)
    (st : Cycle) (d prev : Win32PerfRawDataPerfDiskLogicalDisk) (ht : Tracked blacklist d)
    (hg : st.drivemap.get d.Name = some prev)
    (hdeg : prev.FrequencySys100NS = 0 ∨ d.TimestampSys100NS = prev.TimestampSys100NS) :
    loopBody blacklist ord i st d = .running (st.assign d) := by
  have he : ∃ e, computeValue prev d = .err e := by
    rw [computeValue_cases]
    by_cases hf : prev.FrequencySys100NS = 0
    · exact ⟨"Divide by zero (frequency)", by simp [hf]⟩
    · rcases hdeg with h0 | ht0
      · exact absurd h0 hf
      · exact ⟨"Divide by zero (delta-T)", by simp [hf, ht0, subU64_self]⟩
  obtain ⟨e, he⟩ := he
  exact (rangeLoop_cons_of_err blacklist ord i st d prev [] e ht hg he).1

/-! ## The rate engine: claims C1 to C4 -/

/-- C1 (the code departs from the claim): with a frequency of 10000000 ticks per
second and two snapshots 5000000 ticks apart, both the frequency and the elapsed
ticks are positive, yet `computeValue` does not return: the divisor `dt / f` is 0
and the first division panics. -/
theorem computeValue_panics_within_one_second :
    0 < halfSecondPrev.FrequencySys100NS ∧
    0 < subU64 halfSecondCur.TimestampSys100NS halfSecondPrev.TimestampSys100NS ∧
    computeValue halfSecondPrev halfSecondCur =
      .panic "runtime error: integer divide by zero" := by
  decide

/-- C2: `computeValue` returns the zero-frequency error, and no map, whenever the
previous frequency is 0, and the zero-elapsed-time error, and no map, whenever the
frequency is not 0 and the two timestamps are equal; no other field matters. -/
theorem computeValue_degenerate_errors (pvs cur : Win32PerfRawDataPerfDiskLogicalDisk) :
    (pvs.FrequencySys100NS = 0 →
      computeValue pvs cur = .err "Divide by zero (frequency)") ∧
    (pvs.FrequencySys100NS ≠ 0 → cur.TimestampSys100NS = pvs.TimestampSys100NS →
      computeValue pvs cur = .err "Divide by zero (delta-T)") := by
  constructor
  · intro hf
    simp [computeValue_cases, hf]
  · intro hf ht
    simp [computeValue_cases, hf, ht, subU64_self]

/-- Witness of C2: a zero frequency with equal timestamps gives the frequency
error, and a frequency of 10 with equal timestamps and moving counters gives the
elapsed-time error. -/
theorem computeValue_degenerate_errors_witness :
    ({ scenarioPrev with FrequencySys100NS := 0, TimestampSys100NS := 200 } :
        Win32PerfRawDataPerfDiskLogicalDisk).FrequencySys100NS = 0 ∧
    computeValue { scenarioPrev with FrequencySys100NS := 0, TimestampSys100NS := 200 }
        scenarioCur = .err "Divide by zero (frequency)" ∧
    ({ scenarioPrev with TimestampSys100NS := 200 } :
        Win32PerfRawDataPerfDiskLogicalDisk).FrequencySys100NS ≠ 0 ∧
    scenarioCur.TimestampSys100NS
      = ({ scenarioPrev with TimestampSys100NS := 200 } :
          Win32PerfRawDataPerfDiskLogicalDisk).TimestampSys100NS ∧
    computeValue { scenarioPrev with TimestampSys100NS := 200 } scenarioCur
      = .err "Divide by zero (delta-T)" :=
  ⟨rfl,
   (computeValue_degenerate_errors
      { scenarioPrev with FrequencySys100NS := 0, TimestampSys100NS := 200 } scenarioCur).1 rfl,
   by decide, rfl,
   (computeValue_degenerate_errors
      { scenarioPrev with TimestampSys100NS := 200 } scenarioCur).2 (by decide) rfl⟩

/-- C3, the claim as written fails: in the scenario `computeValue` does not store
`102.4 / 1024` under `system.io.wkb_s`, and the value it stores is not different
from zero. -/
theorem wkb_s_scenario_not_a_tenth :
    (¬ ∃ m, computeValue scenarioPrev scenarioCur = .ok m ∧
        GoMap.get m "system.io.wkb_s" = some ((1024 / 10 : ℚ) / 1024)) ∧
    (¬ ∃ m v, computeValue scenarioPrev scenarioCur = .ok m ∧
        GoMap.get m "system.io.wkb_s" = some v ∧ v ≠ 0) := by
  have h : computeValue scenarioPrev scenarioCur = .ok (rateMap scenarioPrev scenarioCur 10) := by
    decide
  have hv : GoMap.get (rateMap scenarioPrev scenarioCur 10) "system.io.wkb_s" = some 0 := by
    decide
  constructor
  · rintro ⟨m, hm, hg⟩
    rw [h] at hm
    cases hm
    rw [hv] at hg
    norm_num at hg
  · rintro ⟨m, v, hm, hg, hne⟩
    rw [h] at hm
    cases hm
    rw [hv] at hg
    cases hg
    exact hne rfl

/-- C3 as amended: in the scenario, whatever the other counters (equal in both
snapshots) and the names are, `computeValue` succeeds, the write-byte rate is the
truncated quotient `1024 / 10 = 102`, and the value stored under `system.io.wkb_s`
is `float64(102 / 1024)`, that is 0. -/
theorem wkb_s_scenario_is_zero (q rb r w : Nat) (n1 n2 : String) :
    ∃ m, computeValue
          { CurrentDiskQueueLength := q, DiskReadBytesPerSec := rb, DiskReadsPerSec := r,
            DiskWriteBytesPerSec := 1000, DiskWritesPerSec := w, FrequencySys100NS := 10,
            Name := n1, TimestampSys100NS := 100 }
          { CurrentDiskQueueLength := q, DiskReadBytesPerSec := rb, DiskReadsPerSec := r,
            DiskWriteBytesPerSec := 2024, DiskWritesPerSec := w, FrequencySys100NS := 10,
            Name := n2, TimestampSys100NS := 200 } = .ok m ∧
      divU64 (subU64 2024 1000) (subU64 200 100 / 10) = .ok 102 ∧
      GoMap.get m "system.io.wkb_s" = some (float64 (102 / 1024)) ∧
      float64 (102 / 1024) = 0 := by
  rw [computeValue_cases]
  have h1 : subU64 200 100 = 100 := by decide
  have h2 : subU64 2024 1000 / (100 / 10) / 1024 = 102 / 1024 := by decide
  simp only [h1]
  refine ⟨_, rfl, by decide, ?_, by decide⟩
  simp [rateMap, GoMap.get, h2]

/-- C4: whenever `computeValue` succeeds on two well-typed snapshots, each metric
is the reference formula computed in unsigned 64-bit integers, every division
truncating, and converted to floating point only at the end. -/
theorem computeValue_refines_reference (pvs cur : Win32PerfRawDataPerfDiskLogicalDisk)
    (m : GoMap Float64) (hp : WellTyped pvs) (hc : WellTyped cur)
    (h : computeValue pvs cur = .ok m) :
    specSeconds pvs cur ≠ 0 ∧
    GoMap.get m "system.io.w_s"
      = some (float64 (specDelta cur.DiskWritesPerSec pvs.DiskWritesPerSec / specSeconds pvs cur)) ∧
    GoMap.get m "system.io.r_s"
      = some (float64 (specDelta cur.DiskReadsPerSec pvs.DiskReadsPerSec / specSeconds pvs cur)) ∧
    GoMap.get m "system.io.avg_q_sz"
      = some (float64 (specDelta cur.CurrentDiskQueueLength pvs.CurrentDiskQueueLength
          / specSeconds pvs cur)) ∧
    GoMap.get m "system.io.wkb_s"
      = some (float64 (specDelta cur.DiskWriteBytesPerSec pvs.DiskWriteBytesPerSec
          / specSeconds pvs cur / 1024)) ∧
    GoMap.get m "system.io.rkb_s"
      = some (float64 (specDelta cur.DiskReadBytesPerSec pvs.DiskReadBytesPerSec
          / specSeconds pvs cur / 1024)) := by
  obtain ⟨p1, p2, p3, p4, p5, p6, p7⟩ := hp
  obtain ⟨c1, c2, c3, c4, c5, c6, c7⟩ := hc
  have e32 : (2 : Nat) ^ 32 < 2 ^ 64 := by norm_num
  rw [computeValue_cases] at h
  split_ifs at h with hf hdt hq
  cases h
  unfold specSeconds
  rw [← subU64_eq_specDelta _ _ c7 p7,
    ← subU64_eq_specDelta _ _ (lt_trans c5 e32) (lt_trans p5 e32),
    ← subU64_eq_specDelta _ _ (lt_trans c3 e32) (lt_trans p3 e32),
    ← subU64_eq_specDelta _ _ (lt_trans c1 e32) (lt_trans p1 e32),
    ← subU64_eq_specDelta _ _ c4 p4, ← subU64_eq_specDelta _ _ c2 p2]
  refine ⟨hq, ?_, ?_, ?_, ?_, ?_⟩ <;> simp [rateMap, GoMap.get]

/-- Witness of C4: the drive `C:` one second after its earlier snapshot; the
elapsed time is one second and, for instance, the write rate is 8 per second. -/
theorem computeValue_refines_reference_witness :
    WellTyped halfSecondPrev ∧ WellTyped fullSecondCur ∧
    computeValue halfSecondPrev fullSecondCur = .ok (rateMap halfSecondPrev fullSecondCur 1) ∧
    specSeconds halfSecondPrev fullSecondCur = 1 ∧
    GoMap.get (rateMap halfSecondPrev fullSecondCur 1) "system.io.w_s" = some (float64 (8 / 1)) ∧
    GoMap.get (rateMap halfSecondPrev fullSecondCur 1) "system.io.wkb_s"
      = some (float64 (8192 / 1 / 1024)) :=
  have h := computeValue_refines_reference halfSecondPrev fullSecondCur
    (rateMap halfSecondPrev fullSecondCur 1) (by decide) (by decide) (by decide)
  ⟨by decide, by decide, by decide, by decide, h.2.1, h.2.2.2.2.1⟩

/-! ## The poll cycle: claims C5 to C10 -/

/-- C5: for a tracked row whose name is not a key of the store, the iteration of
`Run` that processes it makes no call on the sender and exactly one assignment to
the store, after which the store maps the name of the row to the row. -/
theorem first_observation_is_only_recorded (blacklist : Option Regexp) (ord : RangeOrder)
    (i : Nat) (st : Cycle) (d : Win32PerfRawDataPerfDiskLogicalDisk)
    (ht : Tracked blacklist d) (hnew : st.drivemap.get d.Name = none) :
    ∃ st1, loopBody blacklist ord i st d = .running st1 ∧
      st1.sent = st.sent ∧
      st1.writes = st.writes ++ [(d.Name, d)] ∧
      st1.drivemap = st.drivemap.set d.Name d ∧
      st1.drivemap.get d.Name = some d := by
  refine ⟨st.assign d, ?_, rfl, rfl, rfl, ?_⟩
  · rw [loopBody_tracked blacklist ord i st d ht, hnew]
  · exact GoMap.get_set_self st.drivemap d.Name d

/-- Witness of C5: the drive `C:` seen for the first time by an empty store. -/
theorem first_observation_is_only_recorded_witness :
    Tracked none halfSecondCur ∧
    GoMap.get ([] : GoMap Win32PerfRawDataPerfDiskLogicalDisk) halfSecondCur.Name = none ∧
    ∃ st1, loopBody none backwards 0 { drivemap := [], sent := [], writes := [] } halfSecondCur
        = .running st1 ∧
      st1.sent = [] ∧
      st1.writes = [] ++ [("C:", halfSecondCur)] ∧
      st1.drivemap = GoMap.set [] "C:" halfSecondCur ∧
      st1.drivemap.get "C:" = some halfSecondCur :=
  ⟨by decide, rfl,
   first_observation_is_only_recorded none backwards 0
    { drivemap := [], sent := [], writes := [] } halfSecondCur (by decide) rfl⟩

/-- C6 (the code departs from the claim): the store holds a snapshot of the tracked
drive `C:` and the row of the cycle is taken half a second later. `Run` panics in
`computeValue`, before the assignment to the store: the store still maps `C:` to
the old snapshot and nothing was written. -/
theorem run_panic_skips_store_write (ord : RangeOrder) :
    Tracked none halfSecondCur ∧
    (Run oneDriveCheck
        (.ok ()) (.ok [halfSecondCur]) ord).ret
      = .panic "runtime error: integer divide by zero" ∧
    GoMap.get (Run oneDriveCheck
        (.ok ()) (.ok [halfSecondCur]) ord).st.drivemap "C:" = some halfSecondPrev ∧
    GoMap.get (Run oneDriveCheck
        (.ok ()) (.ok [halfSecondCur]) ord).st.drivemap "C:" ≠ some halfSecondCur ∧
    (Run oneDriveCheck
        (.ok ()) (.ok [halfSecondCur]) ord).st.writes = [] := by
  have hr : Run oneDriveCheck
        (.ok ()) (.ok [halfSecondCur]) ord
      = { ret := .panic "runtime error: integer divide by zero",
          st := { drivemap := [("C:", halfSecondPrev)], sent := [], writes := [] } } := by
    have ht : Tracked none halfSecondCur := by decide
    have hg : GoMap.get [("C:", halfSecondPrev)] halfSecondCur.Name = some halfSecondPrev := by
      decide
    have hc : computeValue halfSecondPrev halfSecondCur
        = .panic "runtime error: integer divide by zero" := by decide
    simp only [Run, oneDriveCheck, rangeLoop, loopBody_tracked none ord 0 _ halfSecondCur ht, hg, hc]
  rw [hr]
  exact ⟨by decide, rfl, by decide, by decide, rfl⟩

/-- C7 (the code departs from the claim): in this batch `computeValue` returns the
zero-frequency error for the drive `C:`, and the row of the drive `D:` comes half a
second after its stored snapshot. `Run` panics on the second row: it neither calls
`Commit` nor returns a nil error. -/
theorem run_panics_after_device_error (ord : RangeOrder) :
    computeValue zeroRow halfSecondCur = .err "Divide by zero (frequency)" ∧
    Run twoDriveCheck (.ok ()) (.ok [halfSecondCur, driveCurD]) ord
      = { ret := .panic "runtime error: integer divide by zero",
          st := { drivemap := [("C:", halfSecondCur), ("D:", drivePrevD)], sent := [],
                  writes := [("C:", halfSecondCur)] } } ∧
    SenderCall.Commit ∉
      (Run twoDriveCheck (.ok ()) (.ok [halfSecondCur, driveCurD]) ord).st.sent := by
  have hr : Run twoDriveCheck (.ok ()) (.ok [halfSecondCur, driveCurD]) ord
      = { ret := .panic "runtime error: integer divide by zero",
          st := { drivemap := [("C:", halfSecondCur), ("D:", drivePrevD)], sent := [],
                  writes := [("C:", halfSecondCur)] } } := by
    have ht1 : Tracked none halfSecondCur := by decide
    have ht2 : Tracked none driveCurD := by decide
    have hc1 : computeValue zeroRow halfSecondCur = .err "Divide by zero (frequency)" := by
      decide
    have hc2 : computeValue drivePrevD driveCurD
        = .panic "runtime error: integer divide by zero" := by decide
    have hg1 : GoMap.get [("C:", zeroRow), ("D:", drivePrevD)] halfSecondCur.Name
        = some zeroRow := by decide
    have hs : GoMap.set [("C:", zeroRow), ("D:", drivePrevD)] halfSecondCur.Name halfSecondCur
        = [("C:", halfSecondCur), ("D:", drivePrevD)] := by decide
    have hg2 : GoMap.get [("C:", halfSecondCur), ("D:", drivePrevD)] driveCurD.Name
        = some drivePrevD := by decide
    simp only [Run, twoDriveCheck, rangeLoop, loopBody_tracked none ord _ _ _ ht1,
      loopBody_tracked none ord _ _ _ ht2, hg1, hc1, Cycle.assign, hs, hg2, hc2]
    rfl
  refine ⟨by decide, hr, ?_⟩
  rw [hr]
  simp

/-- C8: when the sender lookup fails, or when it succeeds and the counter query
fails, `Run` returns that error, makes no call on the sender (no `Gauge`, no
`Commit`) and no assignment to the store, which is left as it was. -/
theorem run_returns_cycle_error (c : IOCheck) (ord : RangeOrder) (e : String) :
    (∀ wmiQuery, Run c (.error e) wmiQuery ord
      = { ret := .err e, st := { drivemap := c.drivemap, sent := [], writes := [] } }) ∧
    Run c (.ok ()) (.error e) ord
      = { ret := .err e, st := { drivemap := c.drivemap, sent := [], writes := [] } } :=
  ⟨fun _ => rfl, rfl⟩

/-- C9: when the sender lookup and the counter query succeed and `Run` returns, it
returns the nil error and the calls on the sender are `Gauge` calls followed by one
`Commit`: `Commit` is called exactly once and nothing follows it. -/
theorem commit_once_and_last (c : IOCheck) (ord : RangeOrder)
    (dst : List Win32PerfRawDataPerfDiskLogicalDisk)
    (h : (Run c (.ok ()) (.ok dst) ord).ret.Returned) :
    (Run c (.ok ()) (.ok dst) ord).ret = .ok () ∧
    (∃ gs, (Run c (.ok ()) (.ok dst) ord).st.sent = gs ++ [SenderCall.Commit] ∧
      ∀ x ∈ gs, x.isGauge = true) ∧
    (Run c (.ok ()) (.ok dst) ord).st.sent.count SenderCall.Commit = 1 := by
  cases hl : rangeLoop c.blacklist ord 0 { drivemap := c.drivemap, sent := [], writes := [] } dst with
  | running st =>
    have hr : Run c (.ok ()) (.ok dst) ord
        = { ret := .ok (), st := { st with sent := st.sent ++ [SenderCall.Commit] } } := by
      simp only [Run, hl]
    obtain ⟨gs, e, a⟩ := rangeLoop_sent c.blacklist ord dst 0 _ st hl
    simp only [List.nil_append] at e
    have hz : gs.count SenderCall.Commit = 0 := by
      rw [List.count_eq_zero]
      intro hmem
      have := a _ hmem
      simp [SenderCall.isGauge] at this
    rw [hr]
    refine ⟨rfl, ⟨gs, by simp only [e], a⟩, ?_⟩
    simp only [e, List.count_append, hz]
    simp
  | panicked msg st =>
    have hr : Run c (.ok ()) (.ok dst) ord = { ret := .panic msg, st := st } := by
      simp only [Run, hl]
    rw [hr] at h
    exact False.elim h

/-- Witness of C9: a cycle over the drive `C:` one second after its stored snapshot
and the row `_Total`, which fails the shape check. -/
theorem commit_once_and_last_witness :
    (Run oneDriveCheck (.ok ()) (.ok [fullSecondCur, { zeroRow with Name := "_Total" }])
        backwards).ret.Returned ∧
    (Run oneDriveCheck (.ok ()) (.ok [fullSecondCur, { zeroRow with Name := "_Total" }])
        backwards).ret = .ok () ∧
    (∃ gs, (Run oneDriveCheck (.ok ()) (.ok [fullSecondCur, { zeroRow with Name := "_Total" }])
        backwards).st.sent = gs ++ [SenderCall.Commit] ∧ ∀ x ∈ gs, x.isGauge = true) ∧
    (Run oneDriveCheck (.ok ()) (.ok [fullSecondCur, { zeroRow with Name := "_Total" }])
        backwards).st.sent.count SenderCall.Commit = 1 :=
  ⟨by decide,
   commit_once_and_last oneDriveCheck backwards
     [fullSecondCur, { zeroRow with Name := "_Total" }] (by decide)⟩

/-- C10: for a tracked row whose name is a key of the store and on which
`computeValue` succeeds against the stored snapshot, the iteration of `Run` makes
exactly five `Gauge` calls, in some order: one for each of the five metric names,
with the value `computeValue` returned under that name, the empty host name, and
the single tag `device:` followed by the name of the row. -/
theorem five_gauges_for_tracked_row (blacklist : Option Regexp) (ord : RangeOrder) (i : Nat)
    (st : Cycle) (d prev : Win32PerfRawDataPerfDiskLogicalDisk) (m : GoMap Float64)
    (hord : RangeOrder.Legit ord) (ht : Tracked blacklist d)
    (hg : st.drivemap.get d.Name = some prev) (hc : computeValue prev d = .ok m) :
    ∃ st1 gs v1 v2 v3 v4 v5,
      loopBody blacklist ord i st d = .running st1 ∧
      st1.sent = st.sent ++ gs ∧
      GoMap.get m "system.io.wkb_s" = some v1 ∧
      GoMap.get m "system.io.w_s" = some v2 ∧
      GoMap.get m "system.io.rkb_s" = some v3 ∧
      GoMap.get m "system.io.r_s" = some v4 ∧
      GoMap.get m "system.io.avg_q_sz" = some v5 ∧
      gs.Perm
        [SenderCall.Gauge "system.io.wkb_s" v1 "" ["device:" ++ d.Name],
         SenderCall.Gauge "system.io.w_s" v2 "" ["device:" ++ d.Name],
         SenderCall.Gauge "system.io.rkb_s" v3 "" ["device:" ++ d.Name],
         SenderCall.Gauge "system.io.r_s" v4 "" ["device:" ++ d.Name],
         SenderCall.Gauge "system.io.avg_q_sz" v5 "" ["device:" ++ d.Name]] := by
  have hm : ∃ s, m = rateMap prev d s := by
    rw [computeValue_cases] at hc
    split_ifs at hc
    cases hc
    exact ⟨_, rfl⟩
  obtain ⟨s, rfl⟩ := hm
  have hb : loopBody blacklist ord i st d = .running (Cycle.assign
      { st with sent := st.sent ++ gaugeAll ["device:" ++ d.Name] (ord i (rateMap prev d s)) } d) := by
    rw [loopBody_tracked blacklist ord i st d ht, hg]
    simp only [hc]
  refine ⟨_, gaugeAll ["device:" ++ d.Name] (ord i (rateMap prev d s)),
    float64 (subU64 d.DiskWriteBytesPerSec prev.DiskWriteBytesPerSec / s / 1024), float64 (subU64 d.DiskWritesPerSec prev.DiskWritesPerSec / s),
    float64 (subU64 d.DiskReadBytesPerSec prev.DiskReadBytesPerSec / s / 1024), float64 (subU64 d.DiskReadsPerSec prev.DiskReadsPerSec / s),
    float64 (subU64 d.CurrentDiskQueueLength prev.CurrentDiskQueueLength / s), hb, rfl, ?_, ?_, ?_, ?_, ?_, ?_⟩
  · simp [rateMap, GoMap.get]
  · simp [rateMap, GoMap.get]
  · simp [rateMap, GoMap.get]
  · simp [rateMap, GoMap.get]
  · simp [rateMap, GoMap.get]
  · exact (hord i (rateMap prev d s)).map _

/-- Witness of C10: the drive `C:` one second after its stored snapshot, with the
metric map walked backwards. -/
theorem five_gauges_for_tracked_row_witness :
    RangeOrder.Legit backwards ∧ Tracked none fullSecondCur ∧
    GoMap.get [("C:", halfSecondPrev)] fullSecondCur.Name = some halfSecondPrev ∧
    computeValue halfSecondPrev fullSecondCur = .ok (rateMap halfSecondPrev fullSecondCur 1) ∧
    ∃ st1 gs v1 v2 v3 v4 v5,
      loopBody none backwards 0 { drivemap := [("C:", halfSecondPrev)], sent := [], writes := [] }
        fullSecondCur = .running st1 ∧
      st1.sent = [] ++ gs ∧
      GoMap.get (rateMap halfSecondPrev fullSecondCur 1) "system.io.wkb_s" = some v1 ∧
      GoMap.get (rateMap halfSecondPrev fullSecondCur 1) "system.io.w_s" = some v2 ∧
      GoMap.get (rateMap halfSecondPrev fullSecondCur 1) "system.io.rkb_s" = some v3 ∧
      GoMap.get (rateMap halfSecondPrev fullSecondCur 1) "system.io.r_s" = some v4 ∧
      GoMap.get (rateMap halfSecondPrev fullSecondCur 1) "system.io.avg_q_sz" = some v5 ∧
      gs.Perm
        [SenderCall.Gauge "system.io.wkb_s" v1 "" ["device:" ++ fullSecondCur.Name],
         SenderCall.Gauge "system.io.w_s" v2 "" ["device:" ++ fullSecondCur.Name],
         SenderCall.Gauge "system.io.rkb_s" v3 "" ["device:" ++ fullSecondCur.Name],
         SenderCall.Gauge "system.io.r_s" v4 "" ["device:" ++ fullSecondCur.Name],
         SenderCall.Gauge "system.io.avg_q_sz" v5 "" ["device:" ++ fullSecondCur.Name]] :=
  ⟨backwards_legit, by decide, by decide, by decide,
   five_gauges_for_tracked_row none backwards 0
    { drivemap := [("C:", halfSecondPrev)], sent := [], writes := [] }
    fullSecondCur halfSecondPrev (rateMap halfSecondPrev fullSecondCur 1)
    backwards_legit (by decide) (by decide) (by decide)⟩

/-! ## Further facts on the rate engine -/

theorem subU64_of_lt (c p : Nat) (hp : p < 2 ^ 64) (h : c < p) :
    subU64 c p = 2 ^ 64 - (p - c) := by
  unfold subU64
  omega

theorem float64Shift_eq_fuel (fuel : Nat) :
    ∀ v : Nat, 2 ^ (52 + fuel) ≤ v → float64Shift fuel v = fuel := by
  induction fuel with
  | zero => intro v _; rfl
  | succ n ih =>
    intro v hv
    have h2 : 2 ^ (52 + (n + 1)) = 2 * 2 ^ (52 + n) := by
      rw [← Nat.add_assoc, Nat.pow_succ, Nat.mul_comm]
    have h53 : 2 ^ 53 ≤ 2 ^ (52 + (n + 1)) :=
      Nat.pow_le_pow_right (by norm_num) (by omega)
    have hnot : ¬ v < 2 ^ 53 := by omega
    have hhalf : 2 ^ (52 + n) ≤ v / 2 := by omega
    simp only [float64Shift, hnot, if_false, ih (v / 2) hhalf]

/-- Rounding to 53 bits does not take a value below `2 ^ 64 - 2 ^ 32`, which is
itself a `float64`. -/
theorem roundU64_ge_top (v : Nat) (hv : 2 ^ 64 - 2 ^ 32 ≤ v) :
    2 ^ 64 - 2 ^ 32 ≤ roundU64 v := by
  have hs : float64Shift 11 v = 11 := float64Shift_eq_fuel 11 v (by norm_num; omega)
  unfold roundU64
  simp only [hs]
  have hq : 2 ^ 64 - 2 ^ 32 ≤ v / 2 ^ 11 * 2 ^ 11 := by omega
  split_ifs
  · have : v / 2 ^ 11 * 2 ^ 11 ≤ (v / 2 ^ 11 + 1) * 2 ^ 11 :=
      Nat.mul_le_mul_right _ (Nat.le_succ _)
    omega
  · exact hq

theorem float64_ge_top (v : Nat) (hv : 2 ^ 64 - 2 ^ 32 ≤ v) :
    ((2 ^ 64 - 2 ^ 32 : Nat) : ℚ) ≤ float64 v := by
  unfold float64
  exact_mod_cast roundU64_ge_top v hv

/-- The keys of the metric map are the five metric names. -/
theorem rateMap_keys (pvs cur : Win32PerfRawDataPerfDiskLogicalDisk) (s : Nat) (k : String) :
    (GoMap.get (rateMap pvs cur s) k).isSome ↔ k ∈ metricNames := by
  simp only [rateMap, GoMap.get, metricNames, List.mem_cons, List.mem_singleton,
    List.not_mem_nil, or_false]
  constructor
  · intro h
    split_ifs at h with h1 h2 h3 h4 h5
    · exact Or.inl h1.symm
    · exact Or.inr (Or.inl h2.symm)
    · exact Or.inr (Or.inr (Or.inl h3.symm))
    · exact Or.inr (Or.inr (Or.inr (Or.inl h4.symm)))
    · exact Or.inr (Or.inr (Or.inr (Or.inr h5.symm)))
    · simp at h
  · intro h
    rcases h with h | h | h | h | h <;> subst h <;> simp

/-! ## The rate engine: claims C12, C13, C15 and C16 -/

/-- C12, the claim as written fails: with the previous timestamp 200, the current
timestamp 100 and the frequency 10, `computeValue` returns no error; it returns
a metric map. -/
theorem timestamp_backwards_no_error :
    scenarioPrev.TimestampSys100NS < scenarioCur.TimestampSys100NS ∧
    scenarioCur.FrequencySys100NS ≠ 0 ∧
    (¬ ∃ e, computeValue scenarioCur scenarioPrev = .err e) ∧
    ∃ m, computeValue scenarioCur scenarioPrev = .ok m := by
  have h : computeValue scenarioCur scenarioPrev
      = .ok (rateMap scenarioCur scenarioPrev 1844674407370955151) := by decide
  refine ⟨by decide, by decide, ?_, ⟨_, h⟩⟩
  rintro ⟨e, he⟩
  rw [h] at he
  cases he

/-- C12 as amended: when the current timestamp is smaller than the previous one and
the frequency is not 0, `computeValue` returns no error: the elapsed ticks wrap to
`2 ^ 64 - (previous - current)`, which is not 0, and whenever that is at least the
frequency the call returns a nil error and the metric map computed from it. -/
theorem timestamp_backwards_wraps (pvs cur : Win32PerfRawDataPerfDiskLogicalDisk)
    (hp : WellTyped pvs) (hlt : cur.TimestampSys100NS < pvs.TimestampSys100NS)
    (hf : pvs.FrequencySys100NS ≠ 0) :
    subU64 cur.TimestampSys100NS pvs.TimestampSys100NS
      = 2 ^ 64 - (pvs.TimestampSys100NS - cur.TimestampSys100NS) ∧
    2 ^ 64 - (pvs.TimestampSys100NS - cur.TimestampSys100NS) ≠ 0 ∧
    (∀ e, computeValue pvs cur ≠ .err e) ∧
    (pvs.FrequencySys100NS ≤ 2 ^ 64 - (pvs.TimestampSys100NS - cur.TimestampSys100NS) →
      computeValue pvs cur = .ok (rateMap pvs cur
        ((2 ^ 64 - (pvs.TimestampSys100NS - cur.TimestampSys100NS)) / pvs.FrequencySys100NS)) ∧
      ∀ k, (GoMap.get (rateMap pvs cur
        ((2 ^ 64 - (pvs.TimestampSys100NS - cur.TimestampSys100NS)) / pvs.FrequencySys100NS))
          k).isSome ↔ k ∈ metricNames) := by
  have hp7 : pvs.TimestampSys100NS < 2 ^ 64 := hp.2.2.2.2.2.2
  have hdt := subU64_of_lt _ _ hp7 hlt
  have hne : 2 ^ 64 - (pvs.TimestampSys100NS - cur.TimestampSys100NS) ≠ 0 := by omega
  refine ⟨hdt, hne, ?_, ?_⟩
  · intro e he
    rw [computeValue_cases, hdt] at he
    simp only [hf, hne, if_false] at he
    split_ifs at he
  · intro hle
    have hq : ¬ (2 ^ 64 - (pvs.TimestampSys100NS - cur.TimestampSys100NS))
        / pvs.FrequencySys100NS = 0 := by
      have hpos : 0 < pvs.FrequencySys100NS := Nat.pos_of_ne_zero hf
      have := Nat.div_pos hle hpos
      omega
    refine ⟨?_, fun k => rateMap_keys _ _ _ k⟩
    rw [computeValue_cases, hdt]
    simp only [hf, hne, hq, if_false]

/-- Witness of C12 as amended: previous timestamp 200, current timestamp 100,
frequency 10. -/
theorem timestamp_backwards_wraps_witness :
    WellTyped scenarioCur ∧
    scenarioPrev.TimestampSys100NS < scenarioCur.TimestampSys100NS ∧
    scenarioCur.FrequencySys100NS ≠ 0 ∧
    subU64 scenarioPrev.TimestampSys100NS scenarioCur.TimestampSys100NS
      = 2 ^ 64 - (scenarioCur.TimestampSys100NS - scenarioPrev.TimestampSys100NS) ∧
    ∀ e, computeValue scenarioCur scenarioPrev ≠ .err e :=
  have h := timestamp_backwards_wraps scenarioCur scenarioPrev (by decide) (by decide)
    (by decide)
  ⟨by decide, by decide, by decide, h.1, h.2.2.1⟩

/-- C13: with a quotient `dt / f` of at least 1, `computeValue` returns no error,
and every counter that went backwards enters its metric as the wrapped difference
`2 ^ 64 - (previous - current)`. For the three 32-bit counters and `dt / f = 1` the
reported `w_s`, `r_s` and `avg_q_sz` are then at least `2 ^ 64 - 2 ^ 32`. -/
theorem counter_backwards_wraps (pvs cur : Win32PerfRawDataPerfDiskLogicalDisk)
    (hp : WellTyped pvs)
    (hq : 1 ≤ subU64 cur.TimestampSys100NS pvs.TimestampSys100NS / pvs.FrequencySys100NS) :
    ∃ m s, s = subU64 cur.TimestampSys100NS pvs.TimestampSys100NS / pvs.FrequencySys100NS ∧
      0 < pvs.FrequencySys100NS ∧
      computeValue pvs cur = .ok m ∧
      (cur.DiskWriteBytesPerSec < pvs.DiskWriteBytesPerSec →
        GoMap.get m "system.io.wkb_s" = some (float64
          ((2 ^ 64 - (pvs.DiskWriteBytesPerSec - cur.DiskWriteBytesPerSec)) / s / 1024))) ∧
      (cur.DiskReadBytesPerSec < pvs.DiskReadBytesPerSec →
        GoMap.get m "system.io.rkb_s" = some (float64
          ((2 ^ 64 - (pvs.DiskReadBytesPerSec - cur.DiskReadBytesPerSec)) / s / 1024))) ∧
      (cur.DiskWritesPerSec < pvs.DiskWritesPerSec →
        GoMap.get m "system.io.w_s" = some (float64
          ((2 ^ 64 - (pvs.DiskWritesPerSec - cur.DiskWritesPerSec)) / s)) ∧
        (s = 1 → ∃ v, GoMap.get m "system.io.w_s" = some v ∧
          ((2 ^ 64 - 2 ^ 32 : Nat) : ℚ) ≤ v)) ∧
      (cur.DiskReadsPerSec < pvs.DiskReadsPerSec →
        GoMap.get m "system.io.r_s" = some (float64
          ((2 ^ 64 - (pvs.DiskReadsPerSec - cur.DiskReadsPerSec)) / s)) ∧
        (s = 1 → ∃ v, GoMap.get m "system.io.r_s" = some v ∧
          ((2 ^ 64 - 2 ^ 32 : Nat) : ℚ) ≤ v)) ∧
      (cur.CurrentDiskQueueLength < pvs.CurrentDiskQueueLength →
        GoMap.get m "system.io.avg_q_sz" = some (float64
          ((2 ^ 64 - (pvs.CurrentDiskQueueLength - cur.CurrentDiskQueueLength)) / s)) ∧
        (s = 1 → ∃ v, GoMap.get m "system.io.avg_q_sz" = some v ∧
          ((2 ^ 64 - 2 ^ 32 : Nat) : ℚ) ≤ v)) := by
  obtain ⟨p1, p2, p3, p4, p5, p6, p7⟩ := hp
  have e32 : (2 : Nat) ^ 32 < 2 ^ 64 := by norm_num
  have hf : pvs.FrequencySys100NS ≠ 0 := by
    intro h0
    rw [h0, Nat.div_zero] at hq
    omega
  have hdt : subU64 cur.TimestampSys100NS pvs.TimestampSys100NS ≠ 0 := by
    intro h0
    rw [h0, Nat.zero_div] at hq
    omega
  have hs : ¬ subU64 cur.TimestampSys100NS pvs.TimestampSys100NS / pvs.FrequencySys100NS = 0 := by
    omega
  have hcv := computeValue_cases pvs cur
  simp only [hf, hdt, hs, if_false] at hcv
  refine ⟨_, _, rfl, Nat.pos_of_ne_zero hf, hcv, ?_, ?_, ?_, ?_, ?_⟩
  · intro h
    simp [rateMap, GoMap.get, subU64_of_lt _ _ p4 h]
  · intro h
    simp [rateMap, GoMap.get, subU64_of_lt _ _ p2 h]
  · intro h
    have hw := subU64_of_lt _ _ (lt_trans p5 e32) h
    refine ⟨by simp [rateMap, GoMap.get, hw], fun h1 =>
      ⟨float64 (2 ^ 64 - (pvs.DiskWritesPerSec - cur.DiskWritesPerSec)),
        by simp [rateMap, GoMap.get, hw, h1], float64_ge_top _ (by omega)⟩⟩
  · intro h
    have hw := subU64_of_lt _ _ (lt_trans p3 e32) h
    refine ⟨by simp [rateMap, GoMap.get, hw], fun h1 =>
      ⟨float64 (2 ^ 64 - (pvs.DiskReadsPerSec - cur.DiskReadsPerSec)),
        by simp [rateMap, GoMap.get, hw, h1], float64_ge_top _ (by omega)⟩⟩
  · intro h
    have hw := subU64_of_lt _ _ (lt_trans p1 e32) h
    refine ⟨by simp [rateMap, GoMap.get, hw], fun h1 =>
      ⟨float64 (2 ^ 64 - (pvs.CurrentDiskQueueLength - cur.CurrentDiskQueueLength)),
        by simp [rateMap, GoMap.get, hw, h1], float64_ge_top _ (by omega)⟩⟩

/-- Witness of C13: one second after `resetPrev`, whose operation counters and
queue length are ahead of the current row. -/
theorem counter_backwards_wraps_witness :
    WellTyped resetPrev ∧
    1 ≤ subU64 fullSecondCur.TimestampSys100NS resetPrev.TimestampSys100NS
      / resetPrev.FrequencySys100NS ∧
    fullSecondCur.DiskWritesPerSec < resetPrev.DiskWritesPerSec ∧
    computeValue resetPrev fullSecondCur = .ok (rateMap resetPrev fullSecondCur 1) ∧
    GoMap.get (rateMap resetPrev fullSecondCur 1) "system.io.w_s"
      = some (float64 (2 ^ 64 - 4)) ∧
    ∃ m s, s = subU64 fullSecondCur.TimestampSys100NS resetPrev.TimestampSys100NS
        / resetPrev.FrequencySys100NS ∧
      0 < resetPrev.FrequencySys100NS ∧
      computeValue resetPrev fullSecondCur = .ok m ∧
      (fullSecondCur.DiskWritesPerSec < resetPrev.DiskWritesPerSec →
        GoMap.get m "system.io.w_s" = some (float64
          ((2 ^ 64 - (resetPrev.DiskWritesPerSec - fullSecondCur.DiskWritesPerSec)) / s)) ∧
        (s = 1 → ∃ v, GoMap.get m "system.io.w_s" = some v ∧
          ((2 ^ 64 - 2 ^ 32 : Nat) : ℚ) ≤ v)) := by
  obtain ⟨m, s, h1, h2, h3, _, _, h6, _, _⟩ :=
    counter_backwards_wraps resetPrev fullSecondCur (by decide) (by decide)
  exact ⟨by decide, by decide, by decide, by decide, by decide, m, s, h1, h2, h3, h6⟩

/-- C15: replacing the frequency of the current snapshot, and the names of both
snapshots, by anything else does not change what `computeValue` does: the same
error, the same panic or the same metric map. -/
theorem computeValue_ignores_current_frequency
    (pvs cur : Win32PerfRawDataPerfDiskLogicalDisk) (f2 : Nat) (n1 n2 : String) :
    computeValue { pvs with Name := n1 } { cur with FrequencySys100NS := f2, Name := n2 }
      = computeValue pvs cur := by
  rw [computeValue_cases, computeValue_cases]
  rfl

/-- C16: `computeValue` returns a nil error and a map whose keys are exactly the
five metric names if and only if the frequency is not 0 and `dt / f` is at least 1,
that is `f ≤ dt`; it returns an error exactly when the frequency or the elapsed
ticks are 0; and for `0 < dt < f` the divisor `dt / f` is 0 and the call panics. -/
theorem computeValue_outcome_iff (pvs cur : Win32PerfRawDataPerfDiskLogicalDisk) :
    ((∃ m, computeValue pvs cur = .ok m ∧ ∀ k, (GoMap.get m k).isSome ↔ k ∈ metricNames) ↔
      (pvs.FrequencySys100NS ≠ 0 ∧
        1 ≤ subU64 cur.TimestampSys100NS pvs.TimestampSys100NS / pvs.FrequencySys100NS)) ∧
    (pvs.FrequencySys100NS ≠ 0 →
      (1 ≤ subU64 cur.TimestampSys100NS pvs.TimestampSys100NS / pvs.FrequencySys100NS ↔
        pvs.FrequencySys100NS ≤ subU64 cur.TimestampSys100NS pvs.TimestampSys100NS)) ∧
    ((∃ e, computeValue pvs cur = .err e) ↔
      (pvs.FrequencySys100NS = 0 ∨
        subU64 cur.TimestampSys100NS pvs.TimestampSys100NS = 0)) ∧
    (pvs.FrequencySys100NS ≠ 0 → subU64 cur.TimestampSys100NS pvs.TimestampSys100NS ≠ 0 →
      subU64 cur.TimestampSys100NS pvs.TimestampSys100NS < pvs.FrequencySys100NS →
      subU64 cur.TimestampSys100NS pvs.TimestampSys100NS / pvs.FrequencySys100NS = 0 ∧
      computeValue pvs cur = .panic "runtime error: integer divide by zero") := by
  have hcv := computeValue_cases pvs cur
  refine ⟨⟨?_, ?_⟩, ?_, ⟨?_, ?_⟩, ?_⟩
  · rintro ⟨m, hm, _⟩
    rw [hcv] at hm
    split_ifs at hm with h1 h2 h3
    exact ⟨h1, Nat.one_le_iff_ne_zero.mpr h3⟩
  · rintro ⟨hf, hq⟩
    have hdt : subU64 cur.TimestampSys100NS pvs.TimestampSys100NS ≠ 0 := by
      intro h0
      rw [h0, Nat.zero_div] at hq
      omega
    have hs : ¬ subU64 cur.TimestampSys100NS pvs.TimestampSys100NS
        / pvs.FrequencySys100NS = 0 := by omega
    simp only [hf, hdt, hs, if_false] at hcv
    exact ⟨_, hcv, fun k => rateMap_keys _ _ _ k⟩
  · intro hf
    have hpos : 0 < pvs.FrequencySys100NS := Nat.pos_of_ne_zero hf
    constructor
    · intro h
      by_contra hlt
      rw [Nat.div_eq_of_lt (Nat.lt_of_not_le hlt)] at h
      omega
    · intro h
      exact Nat.div_pos h hpos
  · rintro ⟨e, he⟩
    rw [hcv] at he
    split_ifs at he with h1 h2 h3
    · exact Or.inl h1
    · exact Or.inr h2
  · intro h
    by_cases hf : pvs.FrequencySys100NS = 0
    · exact ⟨_, by rw [hcv, if_pos hf]⟩
    · rcases h with h | h
      · exact absurd h hf
      · exact ⟨_, by rw [hcv, if_neg hf, if_pos h]⟩
  · intro hf hdt hlt
    have hz := Nat.div_eq_of_lt hlt
    refine ⟨hz, ?_⟩
    rw [hcv]
    simp only [hf, hdt, hz, if_false, if_true]

/-- Witness of C16: half a second after the previous snapshot the elapsed ticks are
positive and below the frequency, the divisor is 0 and the call panics. -/
theorem computeValue_outcome_iff_witness :
    halfSecondPrev.FrequencySys100NS ≠ 0 ∧
    subU64 halfSecondCur.TimestampSys100NS halfSecondPrev.TimestampSys100NS ≠ 0 ∧
    subU64 halfSecondCur.TimestampSys100NS halfSecondPrev.TimestampSys100NS
      < halfSecondPrev.FrequencySys100NS ∧
    (subU64 halfSecondCur.TimestampSys100NS halfSecondPrev.TimestampSys100NS
        / halfSecondPrev.FrequencySys100NS = 0 ∧
      computeValue halfSecondPrev halfSecondCur
        = .panic "runtime error: integer divide by zero") :=
  ⟨by decide, by decide, by decide,
   (computeValue_outcome_iff halfSecondPrev halfSecondCur).2.2.2
     (by decide) (by decide) (by decide)⟩

/-! ## Further facts on the poll cycle -/

theorem string_append_left_cancel (a b c : String) (h : a ++ b = a ++ c) : b = c := by
  have hd := congrArg String.data h
  simp only [String.data_append] at hd
  exact String.ext (List.append_cancel_left hd)

theorem GoMap.get_set {V : Type} (m : GoMap V) (k j : String) (v : V) :
    GoMap.get (GoMap.set m k v) j = if k = j then some v else GoMap.get m j := by
  by_cases h : k = j
  · subst h
    simp [GoMap.get_set_self]
  · simp [h, GoMap.get_set_other m k j v h]

/-- What one iteration leaves behind: nothing new, or, for a tracked row, some
`Gauge` calls tagged with the name of the row and the assignment to the store. -/
theorem loopBody_state (blacklist : Option Regexp) (ord : RangeOrder) (i : Nat) (st : Cycle)
    (d : Win32PerfRawDataPerfDiskLogicalDisk) :
    (loopBody blacklist ord i st d).state = st ∨
    (Tracked blacklist d ∧ ∃ es, (loopBody blacklist ord i st d).state =
      { drivemap := st.drivemap.set d.Name d,
        sent := st.sent ++ gaugeAll ["device:" ++ d.Name] es,
        writes := st.writes ++ [(d.Name, d)] }) := by
  by_cases h1 : d.Name.utf8ByteSize > 3
  · left
    simp only [loopBody, h1, if_true, Flow.state]
  by_cases h2 : blacklisted blacklist d.Name = true
  · left
    simp only [loopBody, h1, h2, if_true, if_false, Flow.state]
  have ht : Tracked blacklist d := ⟨by omega, by simpa using h2⟩
  rw [loopBody_tracked blacklist ord i st d ht]
  cases hget : st.drivemap.get d.Name with
  | none =>
    right
    exact ⟨ht, [], by simp [Flow.state, Cycle.assign, gaugeAll]⟩
  | some prev =>
    cases hcv : computeValue prev d with
    | ok m =>
      right
      exact ⟨ht, ord i m, by simp [Flow.state, Cycle.assign, hcv]⟩
    | err e =>
      right
      exact ⟨ht, [], by simp [Flow.state, Cycle.assign, gaugeAll, hcv]⟩
    | panic msg =>
      left
      simp [Flow.state, hcv]

/-- A property of the effects that every iteration over a row of the batch keeps
holds when the loop ends, whether it ran through or panicked. -/
theorem rangeLoop_invariant (blacklist : Option Regexp) (ord : RangeOrder) (P : Cycle → Prop)
    (dst : List Win32PerfRawDataPerfDiskLogicalDisk) :
    (∀ i st d, d ∈ dst → P st → P (loopBody blacklist ord i st d).state) →
    ∀ (i : Nat) (st : Cycle), P st → P (rangeLoop blacklist ord i st dst).state := by
  induction dst with
  | nil =>
    intro _ i st h
    simpa [rangeLoop, Flow.state] using h
  | cons d dst ih =>
    intro hstep i st h
    have h1 := hstep i st d (List.mem_cons_self d dst) h
    have ih2 := ih (fun j s e he hs => hstep j s e (List.mem_cons_of_mem d he) hs)
    simp only [rangeLoop]
    cases hb : loopBody blacklist ord i st d with
    | running st1 =>
      rw [hb] at h1
      exact ih2 (i + 1) st1 h1
    | panicked msg st1 =>
      rw [hb] at h1
      exact h1

/-- The store, the store writes and the `Gauge` calls of `Run` are those of its
loop. -/
theorem run_effects (c : IOCheck) (ord : RangeOrder)
    (dst : List Win32PerfRawDataPerfDiskLogicalDisk) :
    (Run c (.ok ()) (.ok dst) ord).st.drivemap
      = (rangeLoop c.blacklist ord 0
          { drivemap := c.drivemap, sent := [], writes := [] } dst).state.drivemap ∧
    (Run c (.ok ()) (.ok dst) ord).st.writes
      = (rangeLoop c.blacklist ord 0
          { drivemap := c.drivemap, sent := [], writes := [] } dst).state.writes ∧
    ∀ x ∈ (Run c (.ok ()) (.ok dst) ord).st.sent, x = SenderCall.Commit ∨
      x ∈ (rangeLoop c.blacklist ord 0
          { drivemap := c.drivemap, sent := [], writes := [] } dst).state.sent := by
  simp only [Run]
  cases hl : rangeLoop c.blacklist ord 0 { drivemap := c.drivemap, sent := [], writes := [] } dst with
  | running st =>
    refine ⟨rfl, rfl, ?_⟩
    intro x hx
    simp only [List.mem_append, List.mem_singleton] at hx
    rcases hx with hx | hx
    · exact Or.inr hx
    · exact Or.inl hx
  | panicked msg st =>
    exact ⟨rfl, rfl, fun x hx => Or.inr hx⟩

/-! ## The poll cycle: claims C11 and C14 -/

/-- C11: a name that the configured exclusion pattern matches is never tracked. No
`Gauge` call of the cycle carries the tag `device:` followed by that name, the store
entry of that name is as before the cycle (absent if it was absent), and no store
write has that key. Without a pattern (nil) the filter excludes no name. -/
theorem excluded_device_untouched (c : IOCheck) (ord : RangeOrder)
    (dst : List Win32PerfRawDataPerfDiskLogicalDisk) (re : Regexp) (name : String)
    (hre : c.blacklist = some re) (hm : re name = true) :
    (∀ k v h tags, SenderCall.Gauge k v h tags ∈ (Run c (.ok ()) (.ok dst) ord).st.sent →
      "device:" ++ name ∉ tags) ∧
    GoMap.get (Run c (.ok ()) (.ok dst) ord).st.drivemap name = GoMap.get c.drivemap name ∧
    (∀ kv ∈ (Run c (.ok ()) (.ok dst) ord).st.writes, kv.1 ≠ name) ∧
    (∀ d : Win32PerfRawDataPerfDiskLogicalDisk, d.Name = name → ¬ Tracked c.blacklist d) ∧
    (∀ n : String, blacklisted none n = false) := by
  have hnt : ∀ d : Win32PerfRawDataPerfDiskLogicalDisk, Tracked c.blacklist d → d.Name ≠ name := by
    intro d ht hn
    have h2 := ht.2
    rw [hre, hn] at h2
    simp only [blacklisted] at h2
    rw [hm] at h2
    cases h2
  have key := rangeLoop_invariant c.blacklist ord
    (fun st => (∀ k v h tags, SenderCall.Gauge k v h tags ∈ st.sent → "device:" ++ name ∉ tags) ∧
      GoMap.get st.drivemap name = GoMap.get c.drivemap name ∧
      (∀ kv ∈ st.writes, kv.1 ≠ name)) dst
    (by
      intro i st d _ hP
      rcases loopBody_state c.blacklist ord i st d with h | ⟨ht, es, h⟩
      · rw [h]; exact hP
      · rw [h]
        obtain ⟨hP1, hP2, hP3⟩ := hP
        have hne := hnt d ht
        refine ⟨?_, ?_, ?_⟩
        · intro k v hh tags hmem htag
          simp only [List.mem_append] at hmem
          rcases hmem with hmem | hmem
          · exact hP1 k v hh tags hmem htag
          · simp only [gaugeAll, List.mem_map] at hmem
            obtain ⟨kv, _, hkv⟩ := hmem
            simp only [SenderCall.Gauge.injEq] at hkv
            rw [← hkv.2.2.2] at htag
            simp only [List.mem_singleton] at htag
            exact hne (string_append_left_cancel _ _ _ htag).symm
        · simp only
          rw [GoMap.get_set_other _ _ _ _ hne]
          exact hP2
        · intro kv hkv
          simp only [List.mem_append, List.mem_singleton] at hkv
          rcases hkv with hkv | hkv
          · exact hP3 kv hkv
          · rw [hkv]; exact hne)
    0 { drivemap := c.drivemap, sent := [], writes := [] }
    ⟨by simp, rfl, by simp⟩
  obtain ⟨k1, k2, k3⟩ := key
  obtain ⟨e1, e2, e3⟩ := run_effects c ord dst
  refine ⟨?_, ?_, ?_, fun d hd ht => hnt d ht hd, fun _ => rfl⟩
  · intro k v h tags hmem
    rcases e3 _ hmem with hc | hg
    · cases hc
    · exact k1 k v h tags hg
  · rw [e1]; exact k2
  · rw [e2]; exact k3

/-- Witness of C11: the drive `D:` is excluded and appears in the batch one second
after its stored snapshot, next to the drive `C:`. -/
theorem excluded_device_untouched_witness :
    excludingCheck.blacklist = some onlyD ∧ onlyD "D:" = true ∧
    (Run excludingCheck (.ok ()) (.ok [fullSecondCur, { fullSecondCur with Name := "D:" }])
      backwards).ret = .ok () ∧
    GoMap.get (Run excludingCheck (.ok ())
      (.ok [fullSecondCur, { fullSecondCur with Name := "D:" }]) backwards).st.drivemap "D:"
      = GoMap.get excludingCheck.drivemap "D:" ∧
    (∀ k v h tags, SenderCall.Gauge k v h tags ∈ (Run excludingCheck (.ok ())
      (.ok [fullSecondCur, { fullSecondCur with Name := "D:" }]) backwards).st.sent →
      "device:" ++ "D:" ∉ tags) :=
  have h := excluded_device_untouched excludingCheck backwards
    [fullSecondCur, { fullSecondCur with Name := "D:" }] onlyD "D:" rfl (by decide)
  ⟨rfl, by decide, by decide, h.2.1, h.1⟩

/-- C14: `Run` deletes no store entry, it leaves every entry alone whose key is not
the name of a row of the batch that passes the shape check and the exclusion
filter, and a row whose name is longer than 3 bytes causes no call on the sender
and no store write. -/
theorem run_touches_only_tracked (c : IOCheck) (ord : RangeOrder)
    (dst : List Win32PerfRawDataPerfDiskLogicalDisk) :
    (∀ k, (GoMap.get c.drivemap k).isSome →
      (GoMap.get (Run c (.ok ()) (.ok dst) ord).st.drivemap k).isSome) ∧
    (∀ k, (∀ d ∈ dst, Tracked c.blacklist d → d.Name ≠ k) →
      GoMap.get (Run c (.ok ()) (.ok dst) ord).st.drivemap k = GoMap.get c.drivemap k) ∧
    (∀ i st (d : Win32PerfRawDataPerfDiskLogicalDisk), 3 < d.Name.utf8ByteSize →
      loopBody c.blacklist ord i st d = .running st) := by
  obtain ⟨e1, _, _⟩ := run_effects c ord dst
  refine ⟨?_, ?_, ?_⟩
  · intro k hk
    rw [e1]
    exact rangeLoop_invariant c.blacklist ord
      (fun st => (GoMap.get st.drivemap k).isSome) dst
      (by
        intro i st d _ hP
        rcases loopBody_state c.blacklist ord i st d with h | ⟨_, es, h⟩
        · rw [h]; exact hP
        · rw [h]
          simp only [GoMap.get_set]
          split_ifs
          · rfl
          · exact hP)
      0 { drivemap := c.drivemap, sent := [], writes := [] } hk
  · intro k hk
    rw [e1]
    exact rangeLoop_invariant c.blacklist ord
      (fun st => GoMap.get st.drivemap k = GoMap.get c.drivemap k) dst
      (by
        intro i st d hd hP
        rcases loopBody_state c.blacklist ord i st d with h | ⟨ht, es, h⟩
        · rw [h]; exact hP
        · rw [h]
          simp only
          rw [GoMap.get_set_other _ _ _ _ (hk d hd ht)]
          exact hP)
      0 { drivemap := c.drivemap, sent := [], writes := [] } rfl
  · intro i st d h3
    simp only [loopBody, gt_iff_lt, h3, if_true]

/-- Witness of C14: a cycle over the drive `C:` and the row `_Total`; the entry of
the drive `D:` is not touched. -/
theorem run_touches_only_tracked_witness :
    (GoMap.get twoDriveCheck.drivemap "D:").isSome ∧
    (∀ d ∈ [fullSecondCur, totalRow], Tracked twoDriveCheck.blacklist d → d.Name ≠ "D:") ∧
    3 < totalRow.Name.utf8ByteSize ∧
    (GoMap.get (Run twoDriveCheck (.ok ()) (.ok [fullSecondCur, totalRow])
      backwards).st.drivemap "D:").isSome ∧
    GoMap.get (Run twoDriveCheck (.ok ()) (.ok [fullSecondCur, totalRow])
      backwards).st.drivemap "D:" = GoMap.get twoDriveCheck.drivemap "D:" ∧
    loopBody twoDriveCheck.blacklist backwards 1
      { drivemap := twoDriveCheck.drivemap, sent := [], writes := [] } totalRow
      = .running { drivemap := twoDriveCheck.drivemap, sent := [], writes := [] } :=
  have h := run_touches_only_tracked twoDriveCheck backwards [fullSecondCur, totalRow]
  ⟨by decide, by decide, by decide, h.1 "D:" (by decide), h.2.1 "D:" (by decide),
   h.2.2 1 _ totalRow (by decide)⟩

/-! ## Facts on the drive enumeration -/

theorem convertLoop_in_bounds (winput : List Nat) :
    ∀ (n i : Nat) (ret : List String) (buf : String), n + i ≤ winput.length - 1 →
      ∃ r, convertLoop winput n i ret buf = .ok r := by
  intro n
  induction n with
  | zero => intro i ret buf _; exact ⟨ret, rfl⟩
  | succ n ih =>
    intro i ret buf h
    have h0 : i < winput.length := by omega
    have h1 : i + 1 < winput.length := by omega
    simp only [convertLoop, List.getElem?_eq_getElem h0, List.getElem?_eq_getElem h1]
    split_ifs
    · exact ⟨_, rfl⟩
    · exact ih (i + 1) _ _ (by omega)
    · exact ih (i + 1) _ _ (by omega)

theorem unitsToString_cons (buf : String) (u : Nat) (t : List Nat)
    (hu : ¬ (0xD800 ≤ u ∧ u ≤ 0xDFFF)) :
    buf ++ runeString u ++ unitsToString t = buf ++ unitsToString (u :: t) := by
  apply String.ext
  simp [runeString, hu, unitsToString, String.data_append, String.singleton]

theorem convertLoop_units (w post : List Nat) (s : List Nat) :
    (∀ u ∈ s, PlainUnit u) →
    ∀ (pre : List Nat) (n : Nat) (ret : List String) (buf : String),
      w = pre ++ s ++ post → s.length ≤ n →
      convertLoop w n pre.length ret buf
        = convertLoop w (n - s.length) (pre.length + s.length) ret (buf ++ unitsToString s) := by
  induction s with
  | nil =>
    intro _ pre n ret buf _ _
    have : buf ++ unitsToString [] = buf := by
      apply String.ext; simp [unitsToString, String.data_append]
    simp [this]
  | cons u t ih =>
    intro hs pre n ret buf hw hn
    obtain ⟨hu0, _, husur⟩ := hs u (List.mem_cons_self u t)
    obtain ⟨m, rfl⟩ : ∃ m, n = m + 1 := ⟨n - 1, by simp at hn; omega⟩
    have hget : w[pre.length]? = some u := by
      rw [hw, List.append_assoc, List.getElem?_append_right (le_refl _)]
      simp
    have hstep : convertLoop w (m + 1) pre.length ret buf
        = convertLoop w m (pre.length + 1) ret (buf ++ runeString u) := by
      simp only [convertLoop, hget, hu0, if_false]
    rw [hstep]
    have := ih (fun x hx => hs x (List.mem_cons_of_mem u hx)) (pre ++ [u]) m ret
      (buf ++ runeString u) (by rw [hw]; simp) (by simp at hn; omega)
    simp only [List.length_append, List.length_singleton] at this
    rw [this, unitsToString_cons buf u t husur]
    simp only [List.length_cons]
    congr 1 <;> omega

theorem windowsStringList_ne_nil (ss : List (List Nat)) : windowsStringList ss ≠ [] := by
  cases ss <;> simp [windowsStringList]

theorem convertLoop_strings (w suffix : List Nat) (ss : List (List Nat)) :
    ss ≠ [] → (∀ s ∈ ss, s ≠ [] ∧ ∀ u ∈ s, PlainUnit u) →
    ∀ (pre : List Nat) (ret : List String),
      w = pre ++ windowsStringList ss ++ suffix →
      convertLoop w (w.length - 1 - pre.length) pre.length ret ""
        = .ok (ret ++ ss.map unitsToString) := by
  induction ss with
  | nil => intro h; exact absurd rfl h
  | cons s rest ih =>
    intro _ hs pre ret hw
    obtain ⟨hsne, hsu⟩ := hs s (List.mem_cons_self s rest)
    have hw2 : w = pre ++ s ++ (0 :: windowsStringList rest ++ suffix) := by
      rw [hw]; simp [windowsStringList]
    have hlen : w.length = pre.length + s.length + 1 + (windowsStringList rest).length
        + suffix.length := by
      rw [hw2]; simp; omega
    have hpos : 0 < (windowsStringList rest).length :=
      List.length_pos.mpr (windowsStringList_ne_nil rest)
    rw [convertLoop_units w _ s hsu pre _ ret "" hw2 (by omega)]
    have hbuf : "" ++ unitsToString s = unitsToString s := by
      apply String.ext; simp [String.data_append]
    rw [hbuf]
    obtain ⟨m, hm⟩ : ∃ m, w.length - 1 - pre.length - s.length = m + 1 :=
      ⟨(windowsStringList rest).length + suffix.length - 1, by omega⟩
    rw [hm]
    have hget0 : w[pre.length + s.length]? = some 0 := by
      rw [hw2, List.getElem?_append_right (by simp)]
      simp
    cases rest with
    | nil =>
      have hget1 : w[pre.length + s.length + 1]? = some 0 := by
        rw [hw2, List.getElem?_append_right (by simp)]
        simp [windowsStringList]
      simp [convertLoop, hget0, hget1]
    | cons s2 rest2 =>
      obtain ⟨hs2ne, hs2u⟩ := hs s2 (by simp)
      obtain ⟨u2, t2, rfl⟩ := List.exists_cons_of_ne_nil hs2ne
      have hu2 : u2 ≠ 0 := (hs2u u2 (List.mem_cons_self u2 t2)).1
      have hget1 : w[pre.length + s.length + 1]? = some u2 := by
        rw [hw2, List.getElem?_append_right (by simp)]
        simp [windowsStringList]
      have hrec := ih (by simp) (fun x hx => hs x (List.mem_cons_of_mem s hx))
        (pre ++ s ++ [0]) (ret ++ [unitsToString s]) (by rw [hw2]; simp)
      simp only [List.length_append, List.length_singleton] at hrec
      have hmm : w.length - 1 - (pre.length + s.length + 1) = m := by omega
      rw [hmm] at hrec
      simp only [convertLoop, hget0, hget1, hu2, if_true, if_false]
      rw [hrec]
      simp

/-- `convertWindowsStringList` reads inside the buffer only: it returns for every
buffer. -/
theorem convertWindowsStringList_returns (winput : List Nat) :
    ∃ r, convertWindowsStringList winput = .ok r :=
  convertLoop_in_bounds winput (winput.length - 1) 0 [] "" (by omega)

/-- The loop of `Configure` stores nothing but zero rows. -/
theorem placeFixedDrive_foldl_zero (getDriveType : String → Nat) (DRIVE_FIXED : Nat)
    (drivelist : List String) :
    ∀ c : IOCheck, (∀ k v, GoMap.get c.drivemap k = some v → v = zeroRow) →
      ∀ k v, GoMap.get (drivelist.foldl (placeFixedDrive getDriveType DRIVE_FIXED) c).drivemap k
        = some v → v = zeroRow := by
  induction drivelist with
  | nil => intro c h; simpa using h
  | cons drive rest ih =>
    intro c h
    simp only [List.foldl_cons]
    apply ih
    intro k v hk
    unfold placeFixedDrive at hk
    split_ifs at hk
    · exact h k v hk
    · simp only [GoMap.get_set] at hk
      split_ifs at hk
      · cases hk; rfl
      · exact h k v hk

/-- The loop of `Configure` keeps the zero rows it has stored. -/
theorem placeFixedDrive_foldl_keeps (getDriveType : String → Nat) (DRIVE_FIXED : Nat)
    (drivelist : List String) (k : String) :
    ∀ c : IOCheck, GoMap.get c.drivemap k = some zeroRow →
      GoMap.get (drivelist.foldl (placeFixedDrive getDriveType DRIVE_FIXED) c).drivemap k
        = some zeroRow := by
  induction drivelist with
  | nil => intro c h; simpa using h
  | cons drive rest ih =>
    intro c h
    simp only [List.foldl_cons]
    apply ih
    unfold placeFixedDrive
    split_ifs
    · exact h
    · simp only [GoMap.get_set]
      split_ifs
      · rfl
      · exact h

/-- The loop of `Configure` stores the zero row for every fixed drive of the list. -/
theorem placeFixedDrive_foldl_places (getDriveType : String → Nat) (DRIVE_FIXED : Nat)
    (drivelist : List String) :
    ∀ c : IOCheck, ∀ drive ∈ drivelist, getDriveType (drive ++ "\\") = DRIVE_FIXED →
      GoMap.get (drivelist.foldl (placeFixedDrive getDriveType DRIVE_FIXED) c).drivemap drive
        = some zeroRow := by
  induction drivelist with
  | nil => intro c drive hd; cases hd
  | cons d0 rest ih =>
    intro c drive hd hfix
    simp only [List.foldl_cons]
    rcases List.mem_cons.mp hd with h | h
    · subst h
      apply placeFixedDrive_foldl_keeps
      unfold placeFixedDrive
      simp [hfix, GoMap.get_set_self]
    · exact ih _ drive h hfix

/-! ## Drive enumeration: claims C17 and C18 -/

/-- C17: when `Configure` returns nil, every store entry is the zero row and every
fixed drive of the drive list has one. Whenever the store entry of a tracked row is
the zero row, `computeValue` fails on the zero frequency whatever the row holds, so
the iteration of `Run` makes no call on the sender, and it replaces the entry with
the row. -/
theorem placeholder_replaced_without_rate (c : IOCheck)
    (commonConfigure : IOCheck → IOCheck × Option String) (r : Nat) (drivebuf : List Nat)
    (callErr : String) (getDriveType : String → Nat) (DRIVE_FIXED : Nat)
    (hconf : (Configure c commonConfigure r drivebuf callErr getDriveType DRIVE_FIXED).2
      = .ok ()) :
    (∀ k v, GoMap.get
        (Configure c commonConfigure r drivebuf callErr getDriveType DRIVE_FIXED).1.drivemap k
          = some v → v = zeroRow) ∧
    (∀ drivelist, convertWindowsStringList drivebuf = .ok drivelist →
      ∀ drive ∈ drivelist, getDriveType (drive ++ "\\") = DRIVE_FIXED →
        GoMap.get
          (Configure c commonConfigure r drivebuf callErr getDriveType DRIVE_FIXED).1.drivemap
          drive = some zeroRow) ∧
    (∀ (blacklist : Option Regexp) (ord : RangeOrder) (i : Nat) (st : Cycle)
        (d : Win32PerfRawDataPerfDiskLogicalDisk),
      Tracked blacklist d → GoMap.get st.drivemap d.Name = some zeroRow →
        computeValue zeroRow d = .err "Divide by zero (frequency)" ∧
        ∃ st1, loopBody blacklist ord i st d = .running st1 ∧
          st1.sent = st.sent ∧
          st1.writes = st.writes ++ [(d.Name, d)] ∧
          GoMap.get st1.drivemap d.Name = some d) := by
  refine ⟨?_, ?_, ?_⟩
  · intro k v hk
    unfold Configure at hconf hk
    rcases hcc : commonConfigure c with ⟨c1, _ | err⟩
    · simp only [hcc] at hconf hk
      by_cases hr : r = 0
      · simp [hr] at hconf
      · simp only [hr, if_false] at hconf hk
        cases hcw : convertWindowsStringList drivebuf with
        | ok drivelist =>
          simp only [hcw] at hk
          exact placeFixedDrive_foldl_zero getDriveType DRIVE_FIXED drivelist _
            (by intro k v h; simp [GoMap.empty, GoMap.get] at h) k v hk
        | err e => simp [hcw] at hconf
        | panic msg => simp [hcw] at hconf
    · simp [hcc] at hconf
  · intro drivelist hcw drive hd hfix
    unfold Configure at hconf ⊢
    rcases hcc : commonConfigure c with ⟨c1, _ | err⟩
    · simp only [hcc] at hconf ⊢
      by_cases hr : r = 0
      · simp [hr] at hconf
      · simp only [hr, if_false, hcw]
        exact placeFixedDrive_foldl_places getDriveType DRIVE_FIXED drivelist _ drive hd hfix
    · simp [hcc] at hconf
  · intro blacklist ord i st d ht hg
    have hcv : computeValue zeroRow d = .err "Divide by zero (frequency)" := by
      rw [computeValue_cases]
      simp [zeroRow]
    refine ⟨hcv, st.assign d, ?_, rfl, rfl, GoMap.get_set_self st.drivemap d.Name d⟩
    rw [loopBody_tracked blacklist ord i st d ht, hg]
    simp only [hcv]

set_option maxRecDepth 16000 in
/-- Witness of C17: `Configure` on a buffer listing `C:\` and `D:\`, of which `C:\`
is fixed, then a first row for the key `C:\`. -/
theorem placeholder_replaced_without_rate_witness :
    (Configure oneDriveCheck (fun c => (c, none)) 8 twoDriveBuffer "" onlyCFixed 3).2
      = .ok () ∧
    (Configure oneDriveCheck (fun c => (c, none)) 8 twoDriveBuffer "" onlyCFixed 3).1.drivemap
      = [("C:\\", zeroRow)] ∧
    Tracked none firstRowC ∧
    computeValue zeroRow firstRowC = .err "Divide by zero (frequency)" ∧
    ∃ st1, loopBody none backwards 0
        { drivemap := [("C:\\", zeroRow)], sent := [], writes := [] } firstRowC = .running st1 ∧
      st1.sent = [] ∧
      st1.writes = [] ++ [(firstRowC.Name, firstRowC)] ∧
      GoMap.get st1.drivemap firstRowC.Name = some firstRowC :=
  have h := (placeholder_replaced_without_rate oneDriveCheck (fun c => (c, none)) 8
    twoDriveBuffer "" onlyCFixed 3 (by decide)).2.2 none backwards 0
    { drivemap := [("C:\\", zeroRow)], sent := [], writes := [] } firstRowC
    (by decide) (by decide)
  ⟨by decide, by decide, by decide, h.1, h.2⟩

/-- C18: on the double-NUL-terminated list of a non-empty list of non-empty strings
of code units that are neither NUL nor surrogates, followed by any code units,
`convertWindowsStringList` returns exactly those strings in order; and on every
buffer, the empty one included, it returns without reading outside the buffer. -/
theorem convertWindowsStringList_decodes (ss : List (List Nat)) (suffix : List Nat) :
    (ss ≠ [] → (∀ s ∈ ss, s ≠ [] ∧ ∀ u ∈ s, PlainUnit u) →
      convertWindowsStringList (windowsStringList ss ++ suffix)
        = .ok (ss.map unitsToString)) ∧
    (∀ winput : List Nat, ∃ r, convertWindowsStringList winput = .ok r) ∧
    convertWindowsStringList [] = .ok [] := by
  refine ⟨?_, convertWindowsStringList_returns, rfl⟩
  intro hne hs
  have := convertLoop_strings (windowsStringList ss ++ suffix) suffix ss hne hs [] [] (by simp)
  simpa [convertWindowsStringList] using this

set_option maxRecDepth 16000 in
/-- Witness of C18: the strings `C:\` and `D:\` followed by 247 more code units. -/
theorem convertWindowsStringList_decodes_witness :
    ([[67, 58, 92], [68, 58, 92]] : List (List Nat)) ≠ [] ∧
    (∀ s ∈ ([[67, 58, 92], [68, 58, 92]] : List (List Nat)),
      s ≠ [] ∧ ∀ u ∈ s, PlainUnit u) ∧
    windowsStringList [[67, 58, 92], [68, 58, 92]] ++ List.replicate 247 7
      = [67, 58, 92, 0, 68, 58, 92, 0, 0] ++ List.replicate 247 7 ∧
    List.map unitsToString [[67, 58, 92], [68, 58, 92]] = ["C:\\", "D:\\"] ∧
    convertWindowsStringList (windowsStringList [[67, 58, 92], [68, 58, 92]]
        ++ List.replicate 247 7)
      = .ok (List.map unitsToString [[67, 58, 92], [68, 58, 92]]) :=
  ⟨by decide, by decide, by decide, by decide,
   (convertWindowsStringList_decodes [[67, 58, 92], [68, 58, 92]] (List.replicate 247 7)).1
     (by decide) (by decide)⟩

end IOStats

namespace CustomMetrics

open IOStats

/-! ## The query string: claim C19 -/

/-- C19 (the code departs from the claim): for a tags map with the single entry
`kube_service` whose value is empty, the index expression `t[0]` is out of range
and building the query panics; with the one-byte value `a` it is `t[1]` that is
out of range. `QueryDatadogExtra` panics with it, before any query is sent. -/
theorem query_panics_on_short_tag_value
    (queryMetrics : String → Except String (List Series)) (int64 : Float64 → Int) :
    buildQuery "nginx.net.request_per_s" [("kube_service", "")]
      = .panic "runtime error: index out of range [0] with length 0" ∧
    buildQuery "nginx.net.request_per_s" [("kube_service", "a")]
      = .panic "runtime error: index out of range [1] with length 1" ∧
    QueryDatadogExtra "nginx.net.request_per_s" [("kube_service", "")] queryMetrics int64
      = .panic "runtime error: index out of range [0] with length 0" ∧
    QueryDatadogExtra "nginx.net.request_per_s" [("kube_service", "a")] queryMetrics int64
      = .panic "runtime error: index out of range [1] with length 1" := by
  have h0 : buildQuery "nginx.net.request_per_s" [("kube_service", "")]
      = .panic "runtime error: index out of range [0] with length 0" := by decide
  have h1 : buildQuery "nginx.net.request_per_s" [("kube_service", "a")]
      = .panic "runtime error: index out of range [1] with length 1" := by decide
  refine ⟨h0, h1, ?_, ?_⟩
  · simp only [QueryDatadogExtra, h0, bind, Outcome.bind]
  · simp only [QueryDatadogExtra, h1, bind, Outcome.bind]

end CustomMetrics
